import Mathlib

/-!
# ghttp: error-returning handlers, middleware chaining, CORS and basic authentication

A shallow embedding of `ghttp/ghttp.go`.  The Go code manipulates a response
sink (`http.ResponseWriter`) and a router object through pointers; here this
becomes explicit state passing over a `World` holding the sinks and the router's
embedded `Context` field.  A Go panic is the `error` branch of `Except String`.

Go strings are byte sequences, so they are lists of bytes.  The pieces of the Go
standard library that the code calls (`strings.SplitN`, `base64.StdEncoding`,
`http.Header`, the recording sink of `net/http/httptest`, `http.Error`) are
modelled next to the code that uses them.  The JSON encoder, the content sniffer
and the pattern check of the multiplexer are parameters of the code (`Platform`);
`encoding/json` on a `map[string]string` is modelled and is the encoder of the
platform on which the code is run.
-/

namespace ghttp

/-! ## Go strings -/

/-- One byte of a Go string. -/
abbrev Byte := Fin 256

/-- A Go `string` (also `[]byte`): a sequence of bytes. -/
abbrev GoString := List Byte

/-- The Go string written as an ASCII literal in the source. -/
def lit (s : String) : GoString := s.toList.map (fun c => Fin.ofNat c.toNat)

/-! ## `strings.SplitN` with a one-byte separator -/

/-- Splits `s` around the first occurrence of `sep` (`strings.Index` followed by the
two slicings `s[:m]` and `s[m+1:]` of `genSplit`); `none` when `sep` does not occur. -/
def cutByte (sep : Byte) : GoString → Option (GoString × GoString)
  | [] => none
  | c :: cs =>
    if c = sep then some ([], cs)
    else match cutByte sep cs with
      | none => none
      | some (a, b) => some (c :: a, b)

/-- The call `strings.SplitN(s, sep, n)` for a one-byte `sep` and `n ≥ 0`: at most `n`
substrings, the last one being the unsplit remainder. -/
def SplitN (s : GoString) (sep : Byte) : Nat → List GoString
  | 0 => []
  | 1 => [s]
  | n + 2 =>
    match cutByte sep s with
    | none => [s]
    | some (a, rest) => a :: SplitN rest sep (n + 1)

/-! ## `encoding/base64`, `StdEncoding` -/

/-- The alphabet of `base64.StdEncoding`. -/
def encodeStd : GoString :=
  lit "ABCDEFGHIJKLMNOPQRSTUVWXYZabcdefghijklmnopqrstuvwxyz0123456789+/"

/-- The padding character of `base64.StdEncoding`, `'='`. -/
def StdPadding : Byte := 61

/-- The character that encodes the six-bit value `n`. -/
def encodeSextet (n : Nat) : Byte := encodeStd.getD n 0

/-- The `decodeMap` of the encoding: the six-bit value of a character of the alphabet. -/
def decodeMap (c : Byte) : Option Nat :=
  if c ∈ encodeStd then some (encodeStd.indexOf c) else none

/-- `base64.StdEncoding.EncodeToString`. -/
def EncodeToString : GoString → GoString
  | [] => []
  | [a] => [encodeSextet (a.val / 4), encodeSextet (a.val % 4 * 16), StdPadding, StdPadding]
  | [a, b] =>
    [encodeSextet (a.val / 4), encodeSextet (a.val % 4 * 16 + b.val / 16),
      encodeSextet (b.val % 16 * 4), StdPadding]
  | a :: b :: c :: rest =>
    encodeSextet (a.val / 4) :: encodeSextet (a.val % 4 * 16 + b.val / 16) ::
      encodeSextet (b.val % 16 * 4 + c.val / 64) :: encodeSextet (c.val % 64) ::
      EncodeToString rest

/-- The decoding loop of `Encoding.decodeQuantum` on an input without line breaks: four
characters give three bytes; padding is accepted only as `xx==` or `xxx=` at the very end
of the input; the unused low bits of the last character are not checked. -/
def decodeQuanta : GoString → Option GoString
  | [] => some []
  | c0 :: c1 :: c2 :: c3 :: rest =>
    match decodeMap c0, decodeMap c1 with
    | some v0, some v1 =>
      if c2 = StdPadding then
        if c3 = StdPadding ∧ rest = [] then some [Fin.ofNat (v0 * 4 + v1 / 16)] else none
      else
        match decodeMap c2 with
        | none => none
        | some v2 =>
          if c3 = StdPadding then
            if rest = [] then
              some [Fin.ofNat (v0 * 4 + v1 / 16), Fin.ofNat (v1 % 16 * 16 + v2 / 4)]
            else none
          else
            match decodeMap c3 with
            | none => none
            | some v3 =>
              match decodeQuanta rest with
              | none => none
              | some out =>
                some (Fin.ofNat (v0 * 4 + v1 / 16) :: Fin.ofNat (v1 % 16 * 16 + v2 / 4) ::
                  Fin.ofNat (v2 % 4 * 64 + v3) :: out)
    | _, _ => none
  | _ => none

/-- `base64.StdEncoding.DecodeString`: carriage returns and line feeds are skipped wherever
they stand, the rest is decoded; `none` is the `CorruptInputError`. -/
def DecodeString (s : GoString) : Option GoString :=
  decodeQuanta (s.filter (fun c => c ≠ 10 ∧ c ≠ 13))

/-! ## Errors -/

/-- A non-nil Go `error` value.  `httpError` is the struct of that name; its field `Err` is
an `error`, which may be nil (`none`).  `errorString` stands for every error of another
dynamic type, with its `Error()` text. -/
inductive GoError where
  | errorString (s : GoString)
  | httpError (Err : Option GoError) (Status : Int)

/-- The method `Error()`; for an `httpError` it is `e.Err.Error()`, which panics when `Err`
is nil. -/
def GoError.Error : GoError → Except String GoString
  | .errorString s => .ok s
  | .httpError none _ => .error "invalid memory address or nil pointer dereference"
  | .httpError (some err) _ => err.Error

/-- The call `err.Error()` on an `error` that may be nil. -/
def callError (err : Option GoError) : Except String GoString :=
  match err with
  | none => .error "invalid memory address or nil pointer dereference"
  | some e => e.Error

/-- `newHttpError`. -/
def newHttpError (err : Option GoError) (status : Int) : GoError := .httpError err status

/-! ## `http.Header` -/

/-- A `http.Header`, that is a `map[string][]string`; `none` is an absent key. -/
abbrev Header := GoString → Option (List GoString)

/-- The bytes allowed in a header field name (`validHeaderFieldByte`): letters, digits and
the token punctuation. -/
def validHeaderFieldByte (c : Byte) : Bool :=
  (48 ≤ c.val && c.val ≤ 57) || (65 ≤ c.val && c.val ≤ 90) || (97 ≤ c.val && c.val ≤ 122) ||
    c.val ∈ [33, 35, 36, 37, 38, 39, 42, 43, 45, 46, 94, 95, 96, 124, 126]

/-- The rewriting loop of `canonicalMIMEHeaderKey`: upper case at the start and after each
dash, lower case elsewhere. -/
def canonLoop : Bool → GoString → GoString
  | _, [] => []
  | upper, c :: cs =>
    let c1 : Byte :=
      if upper && (97 ≤ c.val && c.val ≤ 122) then Fin.ofNat (c.val - 32)
      else if !upper && (65 ≤ c.val && c.val ≤ 90) then Fin.ofNat (c.val + 32)
      else c
    c1 :: canonLoop (c1 = 45) cs

/-- `textproto.CanonicalMIMEHeaderKey`: a key with a byte that is not allowed in a field
name is returned unchanged. -/
def CanonicalMIMEHeaderKey (s : GoString) : GoString :=
  if s.all validHeaderFieldByte then canonLoop true s else s

/-- `Header.Set`. -/
def Header.Set (h : Header) (key value : GoString) : Header :=
  Function.update h (CanonicalMIMEHeaderKey key) (some [value])

/-- `Header.Del`. -/
def Header.Del (h : Header) (key : GoString) : Header :=
  Function.update h (CanonicalMIMEHeaderKey key) none

/-- `Header.Get`: the first value of the key, or the empty string. -/
def Header.Get (h : Header) (key : GoString) : GoString :=
  match h (CanonicalMIMEHeaderKey key) with
  | some (v :: _) => v
  | _ => []

/-- The empty header map. -/
def Header.empty : Header := fun _ => none

/-! ## Requests, the response sink and the platform -/

/-- The part of `*http.Request` that the code reads. -/
structure Request where
  Method : GoString
  Header : Header
  Body : GoString

/-- The Go standard library functions that are taken as given: the JSON encoder over the
Go values `V`, the content sniffer and the pattern check of the multiplexer. -/
structure Platform (V : Type) where
  /-- The bytes that `json.Encoder.Encode` writes for a value (the JSON text and a line
  feed), or the error it returns. -/
  Marshal : V → Except GoError GoString
  /-- The Go value `map[string]string{"message": text}`. -/
  message : GoString → V
  /-- The function `http.DetectContentType`. -/
  DetectContentType : GoString → GoString
  /-- Whether `ServeMux.HandleFunc` accepts a pattern, the patterns registered so far
  being given; on a pattern that it does not accept (invalid, or in conflict with a
  registered one) it panics. -/
  acceptsPattern : List GoString → GoString → Bool

/-- The response sink: `httptest.ResponseRecorder`, the implementation of
`http.ResponseWriter` that the tests of the repository use. -/
structure ResponseRecorder where
  Code : Int
  HeaderMap : Header
  Body : GoString
  wroteHeader : Bool
  snapHeader : Option Header

/-- `httptest.NewRecorder`. -/
def NewRecorder : ResponseRecorder :=
  { Code := 200, HeaderMap := Header.empty, Body := [], wroteHeader := false, snapHeader := none }

/-- The response as a client receives it. -/
structure Response where
  StatusCode : Int
  Header : Header
  Body : GoString

/-- `ResponseRecorder.Result`: the headers are those present when the header was written. -/
def ResponseRecorder.Result (rw : ResponseRecorder) : Response :=
  { StatusCode := if rw.Code = 0 then 200 else rw.Code
    Header := rw.snapHeader.getD rw.HeaderMap
    Body := rw.Body }

/-- The call `w.Header().Set(key, value)`. -/
def ResponseRecorder.SetHeader (rw : ResponseRecorder) (key value : GoString) :
    ResponseRecorder :=
  { rw with HeaderMap := rw.HeaderMap.Set key value }

/-- The call `w.Header().Del(key)`. -/
def ResponseRecorder.DelHeader (rw : ResponseRecorder) (key : GoString) : ResponseRecorder :=
  { rw with HeaderMap := rw.HeaderMap.Del key }

/-- `ResponseRecorder.WriteHeader`: only the first call counts, and it panics on a code
outside `100..999` (`checkWriteHeaderCode`). -/
def ResponseRecorder.WriteHeader (rw : ResponseRecorder) (code : Int) :
    Except String ResponseRecorder :=
  if rw.wroteHeader then .ok rw
  else if code < 100 ∨ code > 999 then .error "invalid WriteHeader code"
  else .ok { rw with Code := code, wroteHeader := true, snapHeader := some rw.HeaderMap }

/-- `ResponseRecorder.Write`: when the header is not written yet, a missing `Content-Type`
is sniffed from the data and the header is written with status 200; then the data is
appended to the body. -/
def ResponseRecorder.Write {V : Type} (P : Platform V) (rw : ResponseRecorder)
    (buf : GoString) : ResponseRecorder :=
  let rw1 : ResponseRecorder :=
    if rw.wroteHeader then rw
    else
      let m : Header :=
        if (rw.HeaderMap (lit "Content-Type")).isNone ∧
            rw.HeaderMap.Get (lit "Transfer-Encoding") = [] then
          rw.HeaderMap.Set (lit "Content-Type") (P.DetectContentType buf)
        else rw.HeaderMap
      { rw with HeaderMap := m, Code := 200, wroteHeader := true, snapHeader := some m }
  { rw1 with Body := rw1.Body ++ buf }

/-! ## The data model of the repository -/

/-- `Context`: a response sink and a request.  The sink is a reference; both fields are
nil in the zero value `Context{}`. -/
structure Context where
  ResponseWriter : Option Nat
  Request : Option Request

/-- What a request handler can reach: the response sinks, by reference, and the field
`Context` embedded in the router `Ghttp`, which `defaultHandler` assigns on every request. -/
structure World where
  Sinks : Nat → ResponseRecorder
  Context : Context

/-- Applies an operation to the sink `w`. -/
def World.onSink (σ : World) (w : Nat) (f : ResponseRecorder → ResponseRecorder) : World :=
  { σ with Sinks := Function.update σ.Sinks w (f (σ.Sinks w)) }

/-- The call `w.WriteHeader(code)` on the sink `w`. -/
def World.WriteHeader (σ : World) (w : Nat) (code : Int) : Except String World :=
  match (σ.Sinks w).WriteHeader code with
  | .error e => .error e
  | .ok rw => .ok { σ with Sinks := Function.update σ.Sinks w rw }

/-- `http.HandlerFunc`: a function of the sink and the request, acting on the world; the
`error` branch is a panic. -/
abbrev HttpHandlerFunc := Nat → Request → World → Except String World

/-- `HandlerFunc`: a function from `Context` to an optional error. -/
abbrev HandlerFunc := Context → World → Except String (World × Option GoError)

/-- `Middleware`. -/
abbrev Middleware := HttpHandlerFunc → HttpHandlerFunc

/-- The router.  `ServeMux` is the multiplexer, kept as the sequence of its `HandleFunc`
registrations; `Context` is the value the field is built with, its value while requests
are served being `World.Context`. -/
structure Ghttp where
  ServeMux : List (GoString × HttpHandlerFunc)
  Context : Context
  middleware : Middleware

/-- `http.Error`: deletes `Content-Length`, sets the plain-text content type and
`X-Content-Type-Options`, writes the header with `code` and the text followed by a line
feed. -/
def http.Error {V : Type} (P : Platform V) (w : Nat) (error : GoString) (code : Int)
    (σ : World) : Except String World :=
  let σ1 := σ.onSink w (fun rw =>
    ((rw.DelHeader (lit "Content-Length")).SetHeader (lit "Content-Type")
      (lit "text/plain; charset=utf-8")).SetHeader (lit "X-Content-Type-Options") (lit "nosniff"))
  match σ1.WriteHeader w code with
  | .error e => .error e
  | .ok σ2 => .ok (σ2.onSink w (fun rw => rw.Write P (error ++ lit "\n")))

/-! ## The code of `ghttp.go` -/

/-- `chain`: the loop `for _, m := range middleware { handler = m(handler) }`. -/
def chain (middleware : List Middleware) : Middleware :=
  fun handler => middleware.foldl (fun handler m => m handler) handler

/-- `cors`: four headers on every request; `OPTIONS` is answered with `http.Error` and
status 204, every other method goes to `next`. -/
def cors {V : Type} (P : Platform V) (next : HttpHandlerFunc) : HttpHandlerFunc :=
  fun w r σ =>
    let σ1 := σ.onSink w (fun rw => rw.SetHeader (lit "Access-Control-Allow-Origin") (lit "*"))
    let σ2 := σ1.onSink w (fun rw =>
      rw.SetHeader (lit "Access-Control-Allow-Credentials") (lit "true"))
    let σ3 := σ2.onSink w (fun rw =>
      rw.SetHeader (lit "Access-Control-Allow-Headers")
        (lit "Content-Type, Content-Length, Accept-Encoding, X-CSRF-Token, Authorization, accept, origin, Cache-Control, X-Requested-With"))
    let σ4 := σ3.onSink w (fun rw =>
      rw.SetHeader (lit "Access-Control-Allow-Methods") (lit "POST, GET, OPTIONS, PUT, DELETE"))
    if r.Method = lit "OPTIONS" then
      http.Error P w (lit "No Content") 204 σ4
    else
      next w r σ4

/-- `New`: an empty multiplexer, the zero `Context` and the empty chain. -/
def New : Ghttp :=
  { ServeMux := [], Context := { ResponseWriter := none, Request := none }, middleware := chain [] }

/-- The world in which a router starts to serve: untouched sinks, and the router's
`Context` field as the router was built. -/
def Ghttp.serving (g : Ghttp) : World :=
  { Sinks := fun _ => NewRecorder, Context := g.Context }

/-- `BasicAuth`. -/
def BasicAuth {V : Type} (P : Platform V) (next : HttpHandlerFunc)
    (username password : GoString) : HttpHandlerFunc :=
  fun w r σ =>
    let auth := r.Header.Get (lit "Authorization")
    if auth = [] then
      let σ1 := σ.onSink w (fun rw =>
        rw.SetHeader (lit "WWW-Authenticate") (lit "Basic realm=\"Restricted\""))
      http.Error P w (lit "Authorization required") 401 σ1
    else
      let parts := SplitN auth 32 2
      if parts.length ≠ 2 ∨ parts.getD 0 [] ≠ lit "Basic" then
        http.Error P w (lit "Bad request") 400 σ
      else
        match DecodeString (parts.getD 1 []) with
        | none => http.Error P w (lit "Bad request") 400 σ
        | some credentials =>
          let pair := SplitN credentials 58 2
          if pair.length ≠ 2 ∨ pair.getD 0 [] ≠ username ∨ pair.getD 1 [] ≠ password then
            http.Error P w (lit "Unauthorized") 401 σ
          else
            next w r σ

/-- `NewContext`. -/
def NewContext (w : Nat) (r : Request) : Context :=
  { ResponseWriter := some w, Request := some r }

/-- `Ghttp.CORS`: the chain becomes `chain(cors)`. -/
def Ghttp.CORS {V : Type} (P : Platform V) (g : Ghttp) : Ghttp :=
  { g with middleware := chain [cors P] }

/-- `Context.JSON`: `json.NewEncoder(c.ResponseWriter).Encode(obj)`.  An encoding error is
returned before anything is written; otherwise the bytes are written to the sink, whose
`Write` does not fail.  Calling it on a nil sink panics. -/
def Context.JSON {V : Type} (P : Platform V) (c : Context) (obj : V) (σ : World) :
    Except String (World × Option GoError) :=
  match P.Marshal obj with
  | .error e => .ok (σ, some e)
  | .ok b =>
    match c.ResponseWriter with
    | none => .error "invalid memory address or nil pointer dereference"
    | some w => .ok (σ.onSink w (fun rw => rw.Write P b), none)

/-- `Context.FAIL`: builds the `httpError`; nothing else happens. -/
def Context.FAIL (_c : Context) (err : Option GoError) (status : Int) (σ : World) :
    World × GoError :=
  (σ, newHttpError err status)

/-- The status `http.StatusInternalServerError`. -/
def StatusInternalServerError : Int := 500

/-- `Ghttp.defaultHandler`.  `g.Context` is the field `World.Context`; `g.JSON` is
`Context.JSON` on the value that field has when the call is made, and its result is
dropped.  The text of the error is asked for after the header is written, and the call
panics on an `httpError` whose `Err` is nil. -/
def defaultHandler {V : Type} (P : Platform V) (handler : HandlerFunc) : HttpHandlerFunc :=
  fun w r σ =>
    let σ1 := σ.onSink w (fun rw => rw.SetHeader (lit "Content-Type") (lit "application/json"))
    let σ2 : World := { σ1 with Context := { ResponseWriter := some w, Request := some r } }
    match handler σ2.Context σ2 with
    | .error p => .error p
    | .ok (σ3, none) => .ok σ3
    | .ok (σ3, some (.httpError Err Status)) =>
      match σ3.WriteHeader w Status with
      | .error p => .error p
      | .ok σ4 =>
        match (GoError.httpError Err Status).Error with
        | .error p => .error p
        | .ok text =>
          match Context.JSON P σ4.Context (P.message text) σ4 with
          | .error p => .error p
          | .ok (σ5, _) => .ok σ5
    | .ok (σ3, some err) =>
      match σ3.WriteHeader w StatusInternalServerError with
      | .error p => .error p
      | .ok σ4 =>
        match err.Error with
        | .error p => .error p
        | .ok text =>
          match Context.JSON P σ4.Context (P.message text) σ4 with
          | .error p => .error p
          | .ok (σ5, _) => .ok σ5

/-- `ServeMux.HandleFunc`: a pattern that the multiplexer accepts is bound to the handler,
as one more registration; on any other pattern the call panics and nothing is bound. -/
def Ghttp.HandleFunc {V : Type} (P : Platform V) (g : Ghttp) (pattern : GoString)
    (handler : HttpHandlerFunc) : Except String Ghttp :=
  if P.acceptsPattern (g.ServeMux.map Prod.fst) pattern then
    .ok { g with ServeMux := g.ServeMux ++ [(pattern, handler)] }
  else .error "pattern rejected by ServeMux.HandleFunc"

/-- `Ghttp.GET`. -/
def Ghttp.GET {V : Type} (P : Platform V) (g : Ghttp) (path : GoString)
    (handler : HandlerFunc) : Except String Ghttp :=
  g.HandleFunc P (lit "GET " ++ path) (g.middleware (defaultHandler P handler))

/-- `Ghttp.POST`. -/
def Ghttp.POST {V : Type} (P : Platform V) (g : Ghttp) (path : GoString)
    (handler : HandlerFunc) : Except String Ghttp :=
  g.HandleFunc P (lit "POST " ++ path) (g.middleware (defaultHandler P handler))

/-- `Ghttp.PUT`. -/
def Ghttp.PUT {V : Type} (P : Platform V) (g : Ghttp) (path : GoString)
    (handler : HandlerFunc) : Except String Ghttp :=
  g.HandleFunc P (lit "PUT " ++ path) (g.middleware (defaultHandler P handler))

/-- `Ghttp.DELETE`. -/
def Ghttp.DELETE {V : Type} (P : Platform V) (g : Ghttp) (path : GoString)
    (handler : HandlerFunc) : Except String Ghttp :=
  g.HandleFunc P (lit "DELETE " ++ path) (g.middleware (defaultHandler P handler))

/-! ## `encoding/json` on a `map[string]string` -/

/-- A continuation byte of UTF-8, `10xxxxxx`. -/
def isCont (b : Byte) : Bool := 128 ≤ b.val && b.val ≤ 191

/-- The second byte allowed after the first byte `b0` of a three-byte sequence: no
overlong form after `E0`, no surrogate after `ED`. -/
def isSecond3 (b0 b1 : Byte) : Bool :=
  (if b0.val = 224 then 160 else 128) ≤ b1.val && b1.val ≤ (if b0.val = 237 then 159 else 191)

/-- The second byte allowed after the first byte `b0` of a four-byte sequence: no
overlong form after `F0`, nothing above U+10FFFF after `F4`. -/
def isSecond4 (b0 b1 : Byte) : Bool :=
  (if b0.val = 240 then 144 else 128) ≤ b1.val && b1.val ≤ (if b0.val = 244 then 143 else 191)

/-- The size that `utf8.DecodeRune` finds at the head of a string whose first bytes are a
valid UTF-8 sequence: 1 for ASCII, 2 to 4 for the longer sequences; 0 stands for the empty
string and for an invalid head, where Go answers `RuneError`. -/
def runeLen : GoString → Nat
  | [] => 0
  | b0 :: rest =>
    if b0.val < 128 then 1
    else if 194 ≤ b0.val ∧ b0.val ≤ 223 then
      match rest with
      | b1 :: _ => if isCont b1 then 2 else 0
      | _ => 0
    else if 224 ≤ b0.val ∧ b0.val ≤ 239 then
      match rest with
      | b1 :: b2 :: _ => if isSecond3 b0 b1 && isCont b2 then 3 else 0
      | _ => 0
    else if 240 ≤ b0.val ∧ b0.val ≤ 244 then
      match rest with
      | b1 :: b2 :: b3 :: _ => if isSecond4 b0 b1 && isCont b2 && isCont b3 then 4 else 0
      | _ => 0
    else 0

/-- The loop of `utf8.ValidString`. -/
def validLoop : Nat → GoString → Bool
  | 0, s => s.isEmpty
  | fuel + 1, s => s.isEmpty || (runeLen s != 0 && validLoop fuel (s.drop (runeLen s)))

/-- `utf8.ValidString`: the string is a sequence of valid UTF-8 encodings. -/
def ValidString (s : GoString) : Bool := validLoop s.length s

/-- The table `hex` of `encoding/json`: the lower-case digit of a value below 16. -/
def hexDigit (n : Nat) : Byte := (lit "0123456789abcdef").getD n 0

/-- The table `htmlSafeSet`: the ASCII bytes written as they are, that is the printable
ones and DEL except the double quote, the ampersand, the angle brackets and the
backslash. -/
def htmlSafe (b : Byte) : Bool :=
  32 ≤ b.val && b.val ≤ 127 && b.val != 34 && b.val != 38 && b.val != 60 && b.val != 62 &&
    b.val != 92

/-- What `appendString` writes for an ASCII byte, HTML escaping being on as it is for an
`Encoder`. -/
def escapeASCII (b : Byte) : GoString :=
  if htmlSafe b then [b]
  else if b.val = 92 ∨ b.val = 34 then [92, b]
  else if b.val = 8 then [92, 98]
  else if b.val = 12 then [92, 102]
  else if b.val = 10 then [92, 110]
  else if b.val = 13 then [92, 114]
  else if b.val = 9 then [92, 116]
  else [92, 117, 48, 48, hexDigit (b.val / 16), hexDigit (b.val % 16)]

/-- One turn of the loop of `appendString`: what is written for the head of the string and
how many bytes of it are consumed.  An invalid byte becomes the escape `\ufffd`, the line
and paragraph separators U+2028 and U+2029 become their escapes, any other sequence is
copied. -/
def encodeStep (s : GoString) : GoString × Nat :=
  match s with
  | [] => ([], 0)
  | b0 :: _ =>
    if b0.val < 128 then (escapeASCII b0, 1)
    else if runeLen s = 0 then ([92, 117, 102, 102, 102, 100], 1)
    else if s.take 3 = [226, 128, 168] then ([92, 117, 50, 48, 50, 56], 3)
    else if s.take 3 = [226, 128, 169] then ([92, 117, 50, 48, 50, 57], 3)
    else (s.take (runeLen s), runeLen s)

/-- The loop of `appendString`, between the two quotes. -/
def appendStringLoop : Nat → GoString → GoString
  | 0, _ => []
  | fuel + 1, s =>
    if s.isEmpty then []
    else (encodeStep s).1 ++ appendStringLoop fuel (s.drop (encodeStep s).2)

/-- `appendString`: a string as a JSON string. -/
def appendString (s : GoString) : GoString :=
  34 :: appendStringLoop s.length s ++ [34]

/-- The order of `strings.Compare`: byte by byte, a proper prefix first. -/
def lessString : GoString → GoString → Bool
  | [], [] => false
  | [], _ :: _ => true
  | _ :: _, [] => false
  | a :: as, b :: bs =>
    if a.val < b.val then true else if b.val < a.val then false else lessString as bs

/-- Puts an entry at its place among entries in increasing order of keys. -/
def insertEntry (kv : GoString × GoString) :
    List (GoString × GoString) → List (GoString × GoString)
  | [] => [kv]
  | x :: xs => if lessString x.1 kv.1 then x :: insertEntry kv xs else kv :: x :: xs

/-- The entries of a map in increasing order of keys, the order in which the encoder
writes them. -/
def sortEntries : List (GoString × GoString) → List (GoString × GoString)
  | [] => []
  | kv :: rest => insertEntry kv (sortEntries rest)

/-- The keys of the entries are strictly increasing: the list is a map (no key twice) with
its entries in the order of the encoder. -/
def increasingKeys : List (GoString × GoString) → Bool
  | [] => true
  | [_] => true
  | a :: b :: rest => lessString a.1 b.1 && increasingKeys (b :: rest)

/-- The members of an object: each key and value as JSON strings with a colon between
them, and commas between the members. -/
def encodeMembers : List (GoString × GoString) → GoString
  | [] => []
  | [kv] => appendString kv.1 ++ 58 :: appendString kv.2
  | kv :: kvs => appendString kv.1 ++ 58 :: appendString kv.2 ++ 44 :: encodeMembers kvs

/-- What `json.Encoder.Encode` writes for a `map[string]string` given by its entries: the
object, its members in increasing order of keys, and a line feed. -/
def jsonEncode (m : List (GoString × GoString)) : GoString :=
  123 :: encodeMembers (sortEntries m) ++ [125, 10]

/-- The value of a hexadecimal digit, in either case. -/
def hexValue (c : Byte) : Option Nat :=
  if 48 ≤ c.val ∧ c.val ≤ 57 then some (c.val - 48)
  else if 97 ≤ c.val ∧ c.val ≤ 102 then some (c.val - 87)
  else if 65 ≤ c.val ∧ c.val ≤ 70 then some (c.val - 55)
  else none

/-- `getu4` after the `\u`: the value of four hexadecimal digits, and what follows them. -/
def getu4 (s : GoString) : Option (Nat × GoString) :=
  match s with
  | c0 :: c1 :: c2 :: c3 :: rest =>
    match hexValue c0, hexValue c1, hexValue c2, hexValue c3 with
    | some v0, some v1, some v2, some v3 => some (v0 * 4096 + v1 * 256 + v2 * 16 + v3, rest)
    | _, _, _, _ => none
  | _ => none

/-- `utf8.EncodeRune`: the UTF-8 encoding of a code point; a surrogate or a value above
U+10FFFF is encoded as U+FFFD. -/
def EncodeRune (r : Nat) : GoString :=
  if r < 128 then [Fin.ofNat r]
  else if r < 2048 then [Fin.ofNat (192 + r / 64), Fin.ofNat (128 + r % 64)]
  else if (55296 ≤ r ∧ r ≤ 57343) ∨ 1114111 < r then [239, 191, 189]
  else if r < 65536 then
    [Fin.ofNat (224 + r / 4096), Fin.ofNat (128 + r / 64 % 64), Fin.ofNat (128 + r % 64)]
  else
    [Fin.ofNat (240 + r / 262144), Fin.ofNat (128 + r / 4096 % 64),
      Fin.ofNat (128 + r / 64 % 64), Fin.ofNat (128 + r % 64)]

/-- The escape `\u` of `unquoteBytes`, after the four digits of value `rr`: a surrogate
followed by the escape of its second half is the code point of the pair, a surrogate
alone is U+FFFD. -/
def unquoteU (rr : Nat) (rest : GoString) : GoString × GoString :=
  if 55296 ≤ rr ∧ rr ≤ 57343 then
    match rest with
    | c :: d :: rest1 =>
      if c.val = 92 ∧ d.val = 117 then
        match getu4 rest1 with
        | some (rr1, rest2) =>
          if rr < 56320 ∧ 56320 ≤ rr1 ∧ rr1 ≤ 57343 then
            (EncodeRune ((rr - 55296) * 1024 + (rr1 - 56320) + 65536), rest2)
          else ([239, 191, 189], rest)
        | none => ([239, 191, 189], rest)
      else ([239, 191, 189], rest)
    | _ => ([239, 191, 189], rest)
  else (EncodeRune rr, rest)

/-- One turn of the loop of `unquoteBytes` inside a JSON string: the bytes that the head of
the input stands for, and the rest of the input.  `none` is an invalid string: an unknown
escape, a control character.  A valid UTF-8 sequence is copied and an invalid byte
becomes U+FFFD. -/
def decodeStep (s : GoString) : Option (GoString × GoString) :=
  match s with
  | [] => none
  | c :: rest =>
    if c.val = 92 then
      match rest with
      | [] => none
      | e :: rest1 =>
        if e.val = 34 ∨ e.val = 92 ∨ e.val = 47 then some ([e], rest1)
        else if e.val = 98 then some ([8], rest1)
        else if e.val = 102 then some ([12], rest1)
        else if e.val = 110 then some ([10], rest1)
        else if e.val = 114 then some ([13], rest1)
        else if e.val = 116 then some ([9], rest1)
        else if e.val = 117 then
          match getu4 rest1 with
          | none => none
          | some (rr, rest2) => some (unquoteU rr rest2)
        else none
    else if c.val = 34 ∨ c.val < 32 then none
    else if c.val < 128 then some ([c], rest)
    else if runeLen s = 0 then some ([239, 191, 189], rest)
    else some (s.take (runeLen s), s.drop (runeLen s))

/-- Reads a JSON string after its opening quote: its value and what follows the closing
quote. -/
def readString : Nat → GoString → Option (GoString × GoString)
  | 0, _ => none
  | fuel + 1, s =>
    match s with
    | [] => none
    | c :: rest =>
      if c.val = 34 then some ([], rest)
      else
        match decodeStep s with
        | none => none
        | some (out, rest1) =>
          match readString fuel rest1 with
          | none => none
          | some (value, rest2) => some (out ++ value, rest2)

/-- Reads the members of an object, after its opening brace, up to its closing brace: the
entries in the order read, and what follows the brace. -/
def readMembers : Nat → GoString → Option (List (GoString × GoString) × GoString)
  | 0, _ => none
  | fuel + 1, s =>
    match s with
    | [] => none
    | c :: rest =>
      if c.val = 34 then
        match readString rest.length rest with
        | some (key, d0 :: d1 :: rest2) =>
          if d0.val = 58 ∧ d1.val = 34 then
            match readString rest2.length rest2 with
            | some (value, e :: rest3) =>
              if e.val = 125 then some ([(key, value)], rest3)
              else if e.val = 44 then
                match readMembers fuel rest3 with
                | some (kvs, rest4) => some ((key, value) :: kvs, rest4)
                | none => none
              else none
            | _ => none
          else none
        | _ => none
      else none

/-- What `json.Decoder.Decode` into a `map[string]string` reads from a body made of one
object with string members, written without white space and with its keys in strictly
increasing order, and a line feed: the entries of the map, in that order.  `none` is a
decoding error or a body of another form. -/
def jsonDecode (body : GoString) : Option (List (GoString × GoString)) :=
  match body with
  | [] => none
  | c :: rest =>
    if c.val = 123 then
      if rest = [125, 10] then some []
      else
        match readMembers rest.length rest with
        | some (kvs, tail) => if tail = [10] ∧ increasingKeys kvs = true then some kvs else none
        | none => none
    else none

/-! ## The pattern check of `ServeMux.HandleFunc` -/

/-- Splits a string around its first space or tab (`strings.IndexAny(s, " \t")`); `none`
when it has neither. -/
def cutBlank : GoString → Option (GoString × GoString)
  | [] => none
  | c :: cs =>
    if c.val = 32 ∨ c.val = 9 then some ([], cs)
    else match cutBlank cs with
      | none => none
      | some (a, b) => some (c :: a, b)

/-- The part of a pattern that follows its method: what stands after the first space or
tab, leading spaces and tabs removed, or the whole pattern when it has no method. -/
def patternRest (pattern : GoString) : GoString :=
  match cutBlank pattern with
  | none => pattern
  | some (_, rest) => rest.dropWhile (fun c => c.val = 32 || c.val = 9)

/-- The method of a pattern, empty when it has none. -/
def patternMethod (pattern : GoString) : GoString :=
  match cutBlank pattern with
  | none => []
  | some (method, _) => method

/-- The checks of `ServeMux.HandleFunc` that are modelled here.  From `parsePattern`: the
pattern is not empty, its method if any is a token, what follows the method has a slash
(a pattern without one is refused with `host/path missing /`) and no opening brace before
it.  From the registration: the pattern is not registered already.  A pattern that passes
these checks is taken as accepted. -/
def patternAccepted (registered : List GoString) (pattern : GoString) : Bool :=
  !pattern.isEmpty && (patternMethod pattern).all validHeaderFieldByte &&
    decide ((47 : Byte) ∈ patternRest pattern) &&
    decide ((123 : Byte) ∉ (patternRest pattern).takeWhile (fun c => c.val != 47)) &&
    decide (pattern ∉ registered)

/-! ## A platform and handlers to run the code on -/

/-- A platform on which the code can be run.  The Go values are the `map[string]string`,
given by their entries and encoded as `encoding/json` does; the sniffer answers plain
text, which is what it answers for the bodies written here; the multiplexer accepts the
patterns that pass the modelled checks. -/
def testPlatform : Platform (List (GoString × GoString)) :=
  { Marshal := fun m => .ok (jsonEncode m)
    message := fun text => [(lit "message", text)]
    DetectContentType := fun _ => lit "text/plain; charset=utf-8"
    acceptsPattern := patternAccepted }

/-- The handler `test` of `ghttp_test.go`: answers `{"name":"John Wick"}`. -/
def test : HandlerFunc :=
  fun c σ => Context.JSON testPlatform c [(lit "name", lit "John Wick")] σ

/-- A handler that writes the answer of `test` and then returns a 404 `httpError`. -/
def writeThenFail : HandlerFunc :=
  fun c σ =>
    match test c σ with
    | .error p => .error p
    | .ok (σ1, _) => .ok (σ1, some (newHttpError (some (.errorString (lit "boom"))) 404))

/-- A handler that returns what `FAIL` builds from a nil error and the status 400. -/
def failNil : HandlerFunc :=
  fun c σ => .ok ((c.FAIL none 400 σ).1, some (c.FAIL none 400 σ).2)

/-- A handler that writes nothing and returns `err`. -/
def failWith (err : GoError) : HandlerFunc :=
  fun _ σ => .ok (σ, some err)

/-- A handler during which the router's `Context` field is bound to the sink 1 (as the
dispatch of another request does), and which writes nothing and returns a 404
`httpError`. -/
def failElsewhere : HandlerFunc :=
  fun c σ =>
    .ok ({ σ with Context := { c with ResponseWriter := some 1 } },
      some (newHttpError (some (.errorString (lit "boom"))) 404))

/-- A handler that writes nothing and returns no error. -/
def noop : HandlerFunc :=
  fun _ σ => .ok (σ, none)

/-- A request-handling function that answers 204 and nothing else. -/
def noContent : HttpHandlerFunc :=
  fun w _ σ => σ.WriteHeader w 204

/-- A request with the given method and `Authorization` header and an empty body. -/
def requestWith (method authorization : GoString) : Request :=
  { Method := method
    Header := Header.Set Header.empty (lit "Authorization") authorization
    Body := [] }

/-- A request with the given method, no header and an empty body. -/
def bareRequest (method : GoString) : Request :=
  { Method := method, Header := Header.empty, Body := [] }

/-- The patterns bound in the multiplexer once a registration has returned; `none` when it
panicked. -/
def registered (res : Except String Ghttp) : Option (List GoString) :=
  match res with
  | .error _ => none
  | .ok g => some (g.ServeMux.map Prod.fst)

/-- What a client sees of the sink `w` once a request-handling function has returned:
status and body; `none` when it panicked. -/
def observe (w : Nat) (res : Except String World) : Option (Int × GoString) :=
  match res with
  | .error _ => none
  | .ok σ => some ((σ.Sinks w).Result.StatusCode, (σ.Sinks w).Result.Body)

/-- `Header.Values`: all the values of the key; `none` is the nil slice of an absent key. -/
def Header.Values (h : Header) (key : GoString) : Option (List GoString) :=
  h (CanonicalMIMEHeaderKey key)

/-- The values of one response header of the sink `w` once a request-handling function
has returned. -/
def observeHeader (w : Nat) (key : GoString) (res : Except String World) :
    Option (List GoString) :=
  match res with
  | .error _ => none
  | .ok σ => (σ.Sinks w).Result.Header.Values key

/-- The sink and the method of the request that the router's `Context` field holds once a
request-handling function has returned. -/
def retained (res : Except String World) : Option (Option Nat × Option GoString) :=
  match res with
  | .error _ => none
  | .ok σ => some (σ.Context.ResponseWriter, σ.Context.Request.map (fun r => r.Method))

/-- The status of the response on the sink `w` once a request-handling function has
returned; `none` when it panicked. -/
def observeStatus (w : Nat) (res : Except String World) : Option Int :=
  match res with
  | .error _ => none
  | .ok σ => some (σ.Sinks w).Result.StatusCode

/-- A request-handling function has answered on the sink `w` by the call
`http.Error(w, text, code)` made in the world `σ0`, and the response has the status
`code`. -/
def rejected {V : Type} (P : Platform V) (res : Except String World) (w : Nat)
    (text : GoString) (code : Int) (σ0 : World) : Prop :=
  res = http.Error P w text code σ0 ∧ observeStatus w res = some code

/-- The four CORS response headers, as the interface lists them. -/
def corsHeaders : List (GoString × GoString) :=
  [(lit "Access-Control-Allow-Origin", lit "*"),
   (lit "Access-Control-Allow-Credentials", lit "true"),
   (lit "Access-Control-Allow-Headers",
     lit "Content-Type, Content-Length, Accept-Encoding, X-CSRF-Token, Authorization, accept, origin, Cache-Control, X-Requested-With"),
   (lit "Access-Control-Allow-Methods", lit "POST, GET, OPTIONS, PUT, DELETE")]

/-- Sets each header of a list on a sink, in the order of the list. -/
def withHeaders (hs : List (GoString × GoString)) (rw : ResponseRecorder) : ResponseRecorder :=
  hs.foldl (fun rw kv => rw.SetHeader kv.1 kv.2) rw

/-- The status that the error-to-response translation is specified to give: the `Status`
of an `httpError`, 500 for any other error. -/
def specStatus : GoError → Int
  | .httpError _ Status => Status
  | _ => 500

/-! ## Base64: decoding undoes encoding -/

theorem decodeMap_encodeSextet_fin : ∀ n : Fin 64, decodeMap (encodeSextet n.val) = some n.val := by
  decide

theorem decodeMap_encodeSextet (n : Nat) (h : n < 64) : decodeMap (encodeSextet n) = some n :=
  decodeMap_encodeSextet_fin ⟨n, h⟩

theorem encodeSextet_props_fin : ∀ n : Fin 64,
    encodeSextet n.val ≠ StdPadding ∧ encodeSextet n.val ≠ 10 ∧ encodeSextet n.val ≠ 13 := by
  decide

theorem encodeSextet_ne_pad (n : Nat) (h : n < 64) : encodeSextet n ≠ StdPadding :=
  (encodeSextet_props_fin ⟨n, h⟩).1

theorem pad_keep : StdPadding ≠ 10 ∧ StdPadding ≠ 13 := by decide

theorem mem_EncodeToString (s : GoString) :
    ∀ x ∈ EncodeToString s, x ≠ 10 ∧ x ≠ 13 := by
  induction s using EncodeToString.induct with
  | case1 => intro x hx; simp [EncodeToString] at hx
  | case2 a =>
    have ha := a.isLt
    intro x hx
    simp only [EncodeToString, List.mem_cons, List.mem_singleton, List.not_mem_nil, or_false] at hx
    rcases hx with h | h | h | h
    · rw [h]; exact (encodeSextet_props_fin ⟨_, show a.val / 4 < 64 by omega⟩).2
    · rw [h]; exact (encodeSextet_props_fin ⟨_, show a.val % 4 * 16 < 64 by omega⟩).2
    · rw [h]; exact pad_keep
    · rw [h]; exact pad_keep
  | case3 a b =>
    have ha := a.isLt
    have hb := b.isLt
    intro x hx
    simp only [EncodeToString, List.mem_cons, List.mem_singleton, List.not_mem_nil, or_false] at hx
    rcases hx with h | h | h | h
    · rw [h]; exact (encodeSextet_props_fin ⟨_, show a.val / 4 < 64 by omega⟩).2
    · rw [h]; exact (encodeSextet_props_fin ⟨_, show a.val % 4 * 16 + b.val / 16 < 64 by omega⟩).2
    · rw [h]; exact (encodeSextet_props_fin ⟨_, show b.val % 16 * 4 < 64 by omega⟩).2
    · rw [h]; exact pad_keep
  | case4 a b c rest ih =>
    have ha := a.isLt
    have hb := b.isLt
    have hc := c.isLt
    intro x hx
    simp only [EncodeToString, List.mem_cons] at hx
    rcases hx with h | h | h | h | h
    · rw [h]; exact (encodeSextet_props_fin ⟨_, show a.val / 4 < 64 by omega⟩).2
    · rw [h]; exact (encodeSextet_props_fin ⟨_, show a.val % 4 * 16 + b.val / 16 < 64 by omega⟩).2
    · rw [h]; exact (encodeSextet_props_fin ⟨_, show b.val % 16 * 4 + c.val / 64 < 64 by omega⟩).2
    · rw [h]; exact (encodeSextet_props_fin ⟨_, show c.val % 64 < 64 by omega⟩).2
    · exact ih x h

theorem filter_EncodeToString (s : GoString) :
    (EncodeToString s).filter (fun c => c ≠ 10 ∧ c ≠ 13) = EncodeToString s := by
  rw [List.filter_eq_self]
  intro x hx
  have := mem_EncodeToString s x hx
  simpa using this

theorem fin_ofNat_eq (a : Byte) (n : Nat) (h : n = a.val) : (Fin.ofNat n : Byte) = a := by
  subst h
  apply Fin.ext
  simp [Fin.ofNat]

theorem decodeQuanta_EncodeToString (s : GoString) :
    decodeQuanta (EncodeToString s) = some s := by
  induction s using EncodeToString.induct with
  | case1 => rfl
  | case2 a =>
    have ha := a.isLt
    simp only [EncodeToString, decodeQuanta]
    rw [decodeMap_encodeSextet _ (by omega), decodeMap_encodeSextet _ (by omega)]
    simp only [true_and, if_true]
    rw [fin_ofNat_eq a _ (by omega)]
  | case3 a b =>
    have ha := a.isLt
    have hb := b.isLt
    simp only [EncodeToString, decodeQuanta]
    rw [decodeMap_encodeSextet _ (by omega), decodeMap_encodeSextet _ (by omega)]
    simp only [if_neg (encodeSextet_ne_pad _ (show b.val % 16 * 4 < 64 by omega))]
    rw [decodeMap_encodeSextet _ (by omega)]
    simp only [if_true]
    rw [fin_ofNat_eq a _ (by omega), fin_ofNat_eq b _ (by omega)]
  | case4 a b c rest ih =>
    have ha := a.isLt
    have hb := b.isLt
    have hc := c.isLt
    simp only [EncodeToString, decodeQuanta]
    rw [decodeMap_encodeSextet _ (by omega), decodeMap_encodeSextet _ (by omega)]
    simp only [if_neg (encodeSextet_ne_pad _ (show b.val % 16 * 4 + c.val / 64 < 64 by omega))]
    rw [decodeMap_encodeSextet _ (by omega)]
    simp only [if_neg (encodeSextet_ne_pad _ (show c.val % 64 < 64 by omega))]
    rw [decodeMap_encodeSextet _ (by omega), ih]
    simp only
    rw [fin_ofNat_eq a _ (by omega), fin_ofNat_eq b _ (by omega), fin_ofNat_eq c _ (by omega)]

theorem DecodeString_EncodeToString (s : GoString) :
    DecodeString (EncodeToString s) = some s := by
  unfold DecodeString
  rw [filter_EncodeToString, decodeQuanta_EncodeToString]

/-! ## JSON: decoding undoes encoding on valid UTF-8 -/

theorem hexValue_hexDigit : ∀ n : Fin 16, hexValue (hexDigit n.val) = some n.val := by decide

theorem decodeStep_escapeASCII (b : Byte) (hb : b.val < 128) (tail : GoString) :
    decodeStep (escapeASCII b ++ tail) = some ([b], tail) ∧
      ∃ c out, escapeASCII b = c :: out ∧ c.val ≠ 34 := by
  unfold escapeASCII
  by_cases h1 : htmlSafe b = true
  · rw [if_pos h1]
    simp only [htmlSafe, Bool.and_eq_true, decide_eq_true_eq, bne_iff_ne, ne_eq] at h1
    refine ⟨?_, b, [], rfl, by omega⟩
    have e1 : ¬ b.val = 92 := by omega
    have e2 : ¬ (b.val = 34 ∨ b.val < 32) := by omega
    simp [decodeStep, e1, e2, hb]
  · rw [if_neg h1]
    by_cases h2 : b.val = 92 ∨ b.val = 34
    · rw [if_pos h2]
      refine ⟨?_, 92, [b], rfl, by decide⟩
      rcases h2 with h | h
      · have hb' : b = 92 := Fin.ext h
        subst hb'
        rfl
      · have hb' : b = 34 := Fin.ext h
        subst hb'
        rfl
    · rw [if_neg h2]
      by_cases h3 : b.val = 8
      · rw [if_pos h3]
        have hb8 : b = 8 := Fin.ext h3
        subst hb8
        exact ⟨rfl, 92, [98], rfl, by decide⟩
      · rw [if_neg h3]
        by_cases h4 : b.val = 12
        · rw [if_pos h4]
          have hb' : b = 12 := Fin.ext h4
          subst hb'
          exact ⟨rfl, 92, [102], rfl, by decide⟩
        · rw [if_neg h4]
          by_cases h5 : b.val = 10
          · rw [if_pos h5]
            have hb' : b = 10 := Fin.ext h5
            subst hb'
            exact ⟨rfl, 92, [110], rfl, by decide⟩
          · rw [if_neg h5]
            by_cases h6 : b.val = 13
            · rw [if_pos h6]
              have hb' : b = 13 := Fin.ext h6
              subst hb'
              exact ⟨rfl, 92, [114], rfl, by decide⟩
            · rw [if_neg h6]
              by_cases h7 : b.val = 9
              · rw [if_pos h7]
                have hb' : b = 9 := Fin.ext h7
                subst hb'
                exact ⟨rfl, 92, [116], rfl, by decide⟩
              · rw [if_neg h7]
                refine ⟨?_, 92, _, rfl, by decide⟩
                have hd1 := hexValue_hexDigit ⟨b.val / 16, by omega⟩
                have hd2 := hexValue_hexDigit ⟨b.val % 16, by omega⟩
                simp only at hd1 hd2
                have h0 : hexValue 48 = some 0 := by decide
                have hr : ¬ (55296 ≤ b.val ∧ b.val ≤ 57343) := by omega
                have hsum : 0 * 4096 + 0 * 256 + b.val / 16 * 16 + b.val % 16 = b.val := by omega
                have hfin : (Fin.ofNat b.val : Byte) = b := by
                  apply Fin.ext
                  simp [Fin.ofNat]
                have hu : decodeStep
                    ([92, 117, 48, 48, hexDigit (b.val / 16), hexDigit (b.val % 16)] ++ tail) =
                    match getu4 (48 :: 48 :: hexDigit (b.val / 16) :: hexDigit (b.val % 16) :: tail)
                    with
                    | none => none
                    | some (rr, rest2) => some (unquoteU rr rest2) := rfl
                rw [hu]
                simp only [getu4, h0, hd1, hd2, hsum, unquoteU, hr, EncodeRune, hb, hfin, if_true,
                  if_false]

theorem runeLen_take (s tail : GoString) (hv : runeLen s ≠ 0) :
    runeLen (s.take (runeLen s) ++ tail) = runeLen s ∧ runeLen s ≤ s.length := by
  rcases s with _ | ⟨b0, rest⟩
  · exact absurd rfl hv
  · by_cases h1 : b0.val < 128
    · have e : runeLen (b0 :: rest) = 1 := by simp [runeLen, h1]
      rw [e]
      simp [runeLen, h1]
    · by_cases h2 : 194 ≤ b0.val ∧ b0.val ≤ 223
      · rcases rest with _ | ⟨b1, r1⟩
        · simp [runeLen, h1, h2] at hv
        · cases hc : isCont b1
          · simp [runeLen, h1, h2, hc] at hv
          · have e : runeLen (b0 :: b1 :: r1) = 2 := by simp [runeLen, h1, h2, hc]
            rw [e]
            simp [runeLen, h1, h2, hc]
      · by_cases h3 : 224 ≤ b0.val ∧ b0.val ≤ 239
        · rcases rest with _ | ⟨b1, _ | ⟨b2, r2⟩⟩
          · simp [runeLen, h1, h2, h3] at hv
          · simp [runeLen, h1, h2, h3] at hv
          · cases hc : (isSecond3 b0 b1 && isCont b2)
            · simp [runeLen, h1, h2, h3, hc] at hv
            · have e : runeLen (b0 :: b1 :: b2 :: r2) = 3 := by simp [runeLen, h1, h2, h3, hc]
              rw [e]
              simp [runeLen, h1, h2, h3, hc]
        · by_cases h4 : 240 ≤ b0.val ∧ b0.val ≤ 244
          · rcases rest with _ | ⟨b1, _ | ⟨b2, _ | ⟨b3, r3⟩⟩⟩
            · simp [runeLen, h1, h2, h3, h4] at hv
            · simp [runeLen, h1, h2, h3, h4] at hv
            · simp [runeLen, h1, h2, h3, h4] at hv
            · cases hc : (isSecond4 b0 b1 && isCont b2 && isCont b3)
              · simp [runeLen, h1, h2, h3, h4, hc] at hv
              · have e : runeLen (b0 :: b1 :: b2 :: b3 :: r3) = 4 := by
                  simp [runeLen, h1, h2, h3, h4, hc]
                rw [e]
                simp [runeLen, h1, h2, h3, h4, hc]
          · simp [runeLen, h1, h2, h3, h4] at hv

theorem decodeStep_encodeStep (s tail : GoString) (hv : runeLen s ≠ 0) :
    decodeStep ((encodeStep s).1 ++ tail) = some (s.take (runeLen s), tail) ∧
      (∃ c out, (encodeStep s).1 = c :: out ∧ c.val ≠ 34) ∧
      (encodeStep s).2 = runeLen s := by
  rcases s with _ | ⟨b0, rest⟩
  · exact absurd rfl hv
  · by_cases h1 : b0.val < 128
    · have e : runeLen (b0 :: rest) = 1 := by simp [runeLen, h1]
      have e2 : encodeStep (b0 :: rest) = (escapeASCII b0, 1) := by simp [encodeStep, h1]
      rw [e, e2]
      obtain ⟨p1, p2⟩ := decodeStep_escapeASCII b0 h1 tail
      exact ⟨by simpa using p1, p2, rfl⟩
    · by_cases h2 : (b0 :: rest).take 3 = [226, 128, 168]
      · rcases rest with _ | ⟨b1, _ | ⟨b2, r2⟩⟩
        · simp at h2
        · simp at h2
        · simp only [List.take_succ_cons, List.take_zero, List.cons.injEq, and_true] at h2
          obtain ⟨q0, q1, q2⟩ := h2
          subst q0 q1 q2
          exact ⟨rfl, ⟨92, _, rfl, by decide⟩, rfl⟩
      · by_cases h3 : (b0 :: rest).take 3 = [226, 128, 169]
        · rcases rest with _ | ⟨b1, _ | ⟨b2, r2⟩⟩
          · simp at h3
          · simp at h3
          · simp only [List.take_succ_cons, List.take_zero, List.cons.injEq, and_true] at h3
            obtain ⟨q0, q1, q2⟩ := h3
            subst q0 q1 q2
            exact ⟨rfl, ⟨92, _, rfl, by decide⟩, rfl⟩
        · have e2 : encodeStep (b0 :: rest) =
              ((b0 :: rest).take (runeLen (b0 :: rest)), runeLen (b0 :: rest)) := by
            simp only [encodeStep, h1, hv, h2, h3, if_false]
          obtain ⟨t1, t2⟩ := runeLen_take (b0 :: rest) tail hv
          obtain ⟨m, hm⟩ : ∃ m, runeLen (b0 :: rest) = m + 1 :=
            ⟨runeLen (b0 :: rest) - 1, by omega⟩
          rw [e2]
          refine ⟨?_, ⟨b0, rest.take m, by simp [hm], by omega⟩, rfl⟩
          have hlen : ((b0 :: rest).take (runeLen (b0 :: rest))).length = runeLen (b0 :: rest) := by
            rw [List.length_take]
            omega
          have g1 : ¬ b0.val = 92 := by omega
          have g2 : ¬ (b0.val = 34 ∨ b0.val < 32) := by omega
          have hd : decodeStep (b0 :: (rest.take m ++ tail)) =
              some ((b0 :: (rest.take m ++ tail)).take (runeLen (b0 :: (rest.take m ++ tail))),
                (b0 :: (rest.take m ++ tail)).drop (runeLen (b0 :: (rest.take m ++ tail)))) := by
            have t1' : runeLen (b0 :: (rest.take m ++ tail)) ≠ 0 := by
              have := t1
              rw [hm] at this
              simp only [List.take_succ_cons, List.cons_append] at this
              rw [this]
              omega
            simp only [decodeStep, g1, g2, h1, t1', if_false]
          have hshape : (b0 :: rest).take (runeLen (b0 :: rest)) ++ tail =
              b0 :: (rest.take m ++ tail) := by
            rw [hm]
            rfl
          show decodeStep ((b0 :: rest).take (runeLen (b0 :: rest)) ++ tail) = _
          rw [hshape, hd, ← hshape, t1]
          rw [List.take_left' hlen, List.drop_left' hlen]

theorem readString_appendStringLoop : ∀ (fuel : Nat) (s : GoString), s.length ≤ fuel →
    validLoop fuel s = true → ∀ (tail : GoString) (dfuel : Nat),
    (appendStringLoop fuel s).length < dfuel →
    readString dfuel (appendStringLoop fuel s ++ 34 :: tail) = some (s, tail) := by
  intro fuel
  induction fuel with
  | zero =>
    intro s hlen _ tail dfuel hd
    have hs : s = [] := List.eq_nil_of_length_eq_zero (by omega)
    subst hs
    obtain ⟨d, rfl⟩ : ∃ d, dfuel = d + 1 := ⟨dfuel - 1, by omega⟩
    rfl
  | succ f ih =>
    intro s hlen hvalid tail dfuel hd
    obtain ⟨d, rfl⟩ : ∃ d, dfuel = d + 1 := ⟨dfuel - 1, by omega⟩
    rcases s with _ | ⟨b0, rest⟩
    · rfl
    · simp only [validLoop, List.isEmpty_cons, Bool.false_or, Bool.and_eq_true, bne_iff_ne,
        ne_eq] at hvalid
      obtain ⟨hv, hvrest⟩ := hvalid
      obtain ⟨p1, ⟨c, out, p2, p3⟩, p4⟩ :=
        decodeStep_encodeStep (b0 :: rest)
          (appendStringLoop f ((b0 :: rest).drop (runeLen (b0 :: rest))) ++ 34 :: tail) hv
      have hle := (runeLen_take (b0 :: rest) [] hv).2
      have happ : appendStringLoop (f + 1) (b0 :: rest) =
          (encodeStep (b0 :: rest)).1 ++
            appendStringLoop f ((b0 :: rest).drop (runeLen (b0 :: rest))) := by
        simp only [appendStringLoop, List.isEmpty_cons, Bool.false_eq_true, if_false, p4]
      rw [happ] at hd ⊢
      have hrec := ih ((b0 :: rest).drop (runeLen (b0 :: rest)))
        (by rw [List.length_drop]; simp only [List.length_cons] at hlen hle ⊢; omega)
        hvrest tail d
        (by
          rw [p2] at hd
          simp only [List.length_append, List.length_cons] at hd
          omega)
      rw [List.append_assoc]
      rw [p2] at p1 ⊢
      simp only [List.cons_append] at p1 ⊢
      simp only [readString, p3, if_false, p1, hrec]
      rw [List.take_append_drop]

theorem readString_appendString (s tail : GoString) (hs : ValidString s = true)
    (dfuel : Nat) (hd : (appendString s ++ tail).length ≤ dfuel + 1) :
    ∃ rest, appendString s ++ tail = 34 :: rest ∧ readString dfuel rest = some (s, tail) := by
  refine ⟨appendStringLoop s.length s ++ 34 :: tail, by simp [appendString], ?_⟩
  apply readString_appendStringLoop s.length s (le_refl _) hs
  simp only [appendString, List.cons_append, List.append_assoc, List.length_cons,
    List.length_append, List.singleton_append] at hd
  omega

theorem lessString_asymm : ∀ a b : GoString, lessString a b = true → lessString b a = false := by
  intro a
  induction a with
  | nil => intro b; cases b <;> simp [lessString]
  | cons x xs ih =>
    intro b h
    cases b with
    | nil => simp [lessString] at h
    | cons y ys =>
      simp only [lessString] at h ⊢
      by_cases h1 : x.val < y.val
      · have h2 : ¬ y.val < x.val := by omega
        simp [h1, h2]
      · by_cases h2 : y.val < x.val
        · simp [h1, h2] at h
        · simp only [h1, h2, if_false] at h ⊢
          exact ih ys h

theorem sortEntries_increasing : ∀ m : List (GoString × GoString),
    increasingKeys m = true → sortEntries m = m := by
  intro m
  induction m with
  | nil => intro _; rfl
  | cons a rest ih =>
    intro h
    cases rest with
    | nil => rfl
    | cons b r =>
      simp only [increasingKeys, Bool.and_eq_true] at h
      rw [sortEntries, ih h.2]
      simp [insertEntry, lessString_asymm _ _ h.1]

theorem readMembers_encodeMembers : ∀ (m : List (GoString × GoString)) (kv : GoString × GoString)
    (tail : GoString) (fuel : Nat),
    (∀ x ∈ kv :: m, ValidString x.1 = true ∧ ValidString x.2 = true) →
    m.length < fuel →
    readMembers fuel (encodeMembers (kv :: m) ++ 125 :: tail) = some (kv :: m, tail) := by
  intro m
  induction m with
  | nil =>
    intro kv tail fuel hvalid hfuel
    obtain ⟨f, rfl⟩ : ∃ f, fuel = f + 1 := ⟨fuel - 1, by omega⟩
    obtain ⟨hk, hv⟩ := hvalid kv (List.mem_cons_self _ _)
    obtain ⟨r1, e1, q1⟩ := readString_appendString kv.1
      (58 :: (appendString kv.2 ++ 125 :: tail)) hk
      ((appendString kv.1 ++ 58 :: (appendString kv.2 ++ 125 :: tail)).length - 1) (by omega)
    obtain ⟨r2, e2, q2⟩ := readString_appendString kv.2 (125 :: tail) hv
      ((appendString kv.2 ++ 125 :: tail).length - 1) (by omega)
    have shape : encodeMembers [kv] ++ 125 :: tail = 34 :: r1 := by
      rw [← e1]
      simp [encodeMembers]
    have len1 : r1.length = (appendString kv.1 ++ 58 :: (appendString kv.2 ++ 125 :: tail)).length
        - 1 := by rw [e1]; simp
    have len2 : r2.length = (appendString kv.2 ++ 125 :: tail).length - 1 := by rw [e2]; simp
    rw [shape]
    simp only [readMembers]
    have c34 : (34 : Byte).val = 34 := rfl
    have c58 : (58 : Byte).val = 58 := rfl
    have c125 : (125 : Byte).val = 125 := rfl
    rw [if_pos c34, len1, q1, e2]
    simp only [c58, c34, and_self, if_true]
    rw [len2, q2]
    simp only [c125, if_true]
  | cons kv2 rest ih =>
    intro kv tail fuel hvalid hfuel
    obtain ⟨f, rfl⟩ : ∃ f, fuel = f + 1 := ⟨fuel - 1, by omega⟩
    obtain ⟨hk, hv⟩ := hvalid kv (List.mem_cons_self _ _)
    have hrec := ih kv2 tail f (fun x hx => hvalid x (List.mem_cons_of_mem _ hx))
      (by simp only [List.length_cons] at hfuel; omega)
    obtain ⟨r1, e1, q1⟩ := readString_appendString kv.1
      (58 :: (appendString kv.2 ++ 44 :: (encodeMembers (kv2 :: rest) ++ 125 :: tail))) hk
      ((appendString kv.1 ++
        58 :: (appendString kv.2 ++ 44 :: (encodeMembers (kv2 :: rest) ++ 125 :: tail))).length
        - 1) (by omega)
    obtain ⟨r2, e2, q2⟩ := readString_appendString kv.2
      (44 :: (encodeMembers (kv2 :: rest) ++ 125 :: tail)) hv
      ((appendString kv.2 ++ 44 :: (encodeMembers (kv2 :: rest) ++ 125 :: tail)).length - 1)
      (by omega)
    have shape : encodeMembers (kv :: kv2 :: rest) ++ 125 :: tail = 34 :: r1 := by
      rw [← e1]
      simp [encodeMembers]
    have len1 : r1.length = (appendString kv.1 ++
        58 :: (appendString kv.2 ++ 44 :: (encodeMembers (kv2 :: rest) ++ 125 :: tail))).length
        - 1 := by rw [e1]; simp
    have len2 : r2.length =
        (appendString kv.2 ++ 44 :: (encodeMembers (kv2 :: rest) ++ 125 :: tail)).length - 1 := by
      rw [e2]; simp
    rw [shape]
    simp only [readMembers]
    have c34 : (34 : Byte).val = 34 := rfl
    have c58 : (58 : Byte).val = 58 := rfl
    have c44 : (44 : Byte).val = 44 := rfl
    have n125 : ¬ (44 : Byte).val = 125 := by decide
    rw [if_pos c34, len1, q1, e2]
    simp only [c58, c34, and_self, if_true]
    rw [len2, q2]
    simp only [n125, c44, if_true, if_false, hrec]
    simp

theorem jsonDecode_jsonEncode (m : List (GoString × GoString))
    (hinc : increasingKeys m = true)
    (hvalid : ∀ x ∈ m, ValidString x.1 = true ∧ ValidString x.2 = true) :
    jsonDecode (jsonEncode m) = some m := by
  unfold jsonEncode
  rw [sortEntries_increasing m hinc]
  cases m with
  | nil => rfl
  | cons kv rest =>
    have hne : encodeMembers (kv :: rest) ++ [125, 10] ≠ [125, 10] := by
      intro h
      have hl := congrArg List.length h
      have : 2 ≤ (encodeMembers (kv :: rest)).length := by
        cases rest <;> simp [encodeMembers, appendString] <;> omega
      simp only [List.length_append, List.length_cons, List.length_nil] at hl
      omega
    have hread := readMembers_encodeMembers rest kv [10]
      (encodeMembers (kv :: rest) ++ [125, 10]).length hvalid (by
        have : rest.length < (encodeMembers (kv :: rest)).length := by
          clear hne hvalid hinc
          induction rest generalizing kv with
          | nil => simp [encodeMembers, appendString]
          | cons kv2 r ih =>
            have := ih kv2
            simp only [encodeMembers, appendString, List.length_append, List.length_cons] at this ⊢
            omega
        simp only [List.length_append]
        omega)
    have c123 : (123 : Byte).val = 123 := rfl
    simp only [jsonDecode, List.cons_append, c123, if_true, hne, if_false]
    have e : encodeMembers (kv :: rest) ++ [125, 10] =
        encodeMembers (kv :: rest) ++ 125 :: [10] := rfl
    rw [e, hread]
    simp [hinc]

/-! ## Splitting at the first separator -/

theorem cutByte_append (sep : Byte) (a b : GoString) (h : sep ∉ a) :
    cutByte sep (a ++ sep :: b) = some (a, b) := by
  induction a with
  | nil => simp [cutByte]
  | cons c cs ih =>
    have hc : c ≠ sep := fun e => h (by simp [e])
    have hcs : sep ∉ cs := fun e => h (by simp [e])
    simp [cutByte, hc, ih hcs]

theorem SplitN_two (sep : Byte) (a b : GoString) (h : sep ∉ a) :
    SplitN (a ++ sep :: b) sep 2 = [a, b] := by
  simp [SplitN, cutByte_append sep a b h]

/-! ## The middleware chain -/

theorem chain_cons (m : Middleware) (ms : List Middleware) (h : HttpHandlerFunc) :
    chain (m :: ms) h = chain ms (m h) := rfl

theorem chain_append_singleton (ms : List Middleware) (m : Middleware) (h : HttpHandlerFunc) :
    chain (ms ++ [m]) h = m (chain ms h) := by
  simp [chain, List.foldl_append]

/-! ## The world -/

@[simp] theorem onSink_Sinks_self (σ : World) (w : Nat) (f : ResponseRecorder → ResponseRecorder) :
    (σ.onSink w f).Sinks w = f (σ.Sinks w) := by
  simp [World.onSink]

@[simp] theorem onSink_Context (σ : World) (w : Nat) (f : ResponseRecorder → ResponseRecorder) :
    (σ.onSink w f).Context = σ.Context := rfl

theorem WriteHeader_Context (σ σ1 : World) (w : Nat) (code : Int)
    (h : σ.WriteHeader w code = .ok σ1) : σ1.Context = σ.Context := by
  unfold World.WriteHeader at h
  cases hrw : (σ.Sinks w).WriteHeader code with
  | error e => simp [hrw] at h
  | ok rw =>
    simp only [hrw, Except.ok.injEq] at h
    rw [← h]

theorem JSON_Context {V : Type} (P : Platform V) (c : Context) (obj : V) (σ σ1 : World)
    (e : Option GoError) (h : Context.JSON P c obj σ = .ok (σ1, e)) : σ1.Context = σ.Context := by
  unfold Context.JSON at h
  cases hm : P.Marshal obj with
  | error err =>
    simp only [hm, Except.ok.injEq, Prod.mk.injEq] at h
    rw [← h.1]
  | ok b =>
    cases hw : c.ResponseWriter with
    | none => simp [hm, hw] at h
    | some w =>
      simp only [hm, hw, Except.ok.injEq, Prod.mk.injEq] at h
      rw [← h.1]
      rfl

theorem WriteHeader_fresh (σ : World) (w : Nat) (code : Int)
    (hf : (σ.Sinks w).wroteHeader = false) (hc : 100 ≤ code ∧ code ≤ 999) :
    σ.WriteHeader w code = .ok (σ.onSink w (fun rw =>
      { rw with Code := code, wroteHeader := true, snapHeader := some rw.HeaderMap })) := by
  have h1 : ¬ (code < 100 ∨ code > 999) := by omega
  simp [World.WriteHeader, ResponseRecorder.WriteHeader, World.onSink, hf, h1]

/-! ## The claims -/

/-- C5, as amended: `chain` wraps in list order, so the middleware listed last is the
outermost wrapper and the one listed first is the innermost: `chain (ms ++ [m]) h` is `m`
applied to `chain ms h`, `chain (m1 :: ms) h` is `chain ms` applied to `m1 h`, and the chain
of two middlewares `m1, m2` is `m2 (m1 h)`, in which the code of `m2` runs first. -/
theorem chain_last_listed_is_outermost (ms : List Middleware) (m : Middleware)
    (h : HttpHandlerFunc) :
    chain (ms ++ [m]) h = m (chain ms h) ∧
    (∀ m1 : Middleware, chain (m1 :: ms) h = chain ms (m1 h)) ∧
    (∀ m1 m2 : Middleware, chain [m1, m2] h = m2 (m1 h)) :=
  ⟨chain_append_singleton ms m h, fun m1 => chain_cons m1 ms h, fun _ _ => rfl⟩

/-- C5 fails as stated: in the chain of `cors` then basic authentication, a request without
credentials is rejected by the authentication, listed second, before `cors`, listed first,
has run, and the response has no CORS header; with `cors` as the outermost wrapper it
would have one. -/
theorem chain_first_listed_runs_last :
    observeHeader 0 (lit "Access-Control-Allow-Origin")
      (chain [cors testPlatform,
          fun next => BasicAuth testPlatform next (lit "user") (lit "pass")]
        noContent 0 (bareRequest (lit "GET")) New.serving) = none ∧
    observeHeader 0 (lit "Access-Control-Allow-Origin")
      (cors testPlatform (BasicAuth testPlatform noContent (lit "user") (lit "pass"))
        0 (bareRequest (lit "GET")) New.serving) = some [lit "*"] := by
  decide

/-- C7, as amended: each of `GET`, `POST`, `PUT`, `DELETE` makes one call of the
multiplexer's `HandleFunc`, with the pattern made of the verb, a space and the path, and
with the router's middleware applied to `defaultHandler` of the handler.  When the
multiplexer accepts the pattern, exactly that one registration is added and the rest of
the router is unchanged; when it does not, the call panics and binds nothing.  The
middleware of `New` is the empty chain, which is the identity, so that the handler bound on
a new router is `defaultHandler` of the handler itself; after `CORS` the middleware is the
chain of `cors` alone, which is `cors`. -/
theorem registration_binds_verb_and_path {V : Type} (P : Platform V) (g : Ghttp)
    (p : GoString) (h : HandlerFunc) :
    (∀ verb ∈ [(lit "GET ", Ghttp.GET P g p h), (lit "POST ", Ghttp.POST P g p h),
        (lit "PUT ", Ghttp.PUT P g p h), (lit "DELETE ", Ghttp.DELETE P g p h)],
      (P.acceptsPattern (g.ServeMux.map Prod.fst) (verb.1 ++ p) = true →
        verb.2 = .ok { g with ServeMux :=
          g.ServeMux ++ [(verb.1 ++ p, g.middleware (defaultHandler P h))] }) ∧
      (P.acceptsPattern (g.ServeMux.map Prod.fst) (verb.1 ++ p) = false →
        registered verb.2 = none)) ∧
    (New.middleware = chain [] ∧ (∀ f : HttpHandlerFunc, New.middleware f = f) ∧
      (P.acceptsPattern [] (lit "GET " ++ p) = true →
        New.GET P p h = .ok { New with ServeMux := [(lit "GET " ++ p, defaultHandler P h)] })) ∧
    ((g.CORS P).middleware = chain [cors P] ∧
      (∀ f : HttpHandlerFunc, (g.CORS P).middleware f = cors P f) ∧
      (P.acceptsPattern (g.ServeMux.map Prod.fst) (lit "GET " ++ p) = true →
        (g.CORS P).GET P p h = .ok { g.CORS P with ServeMux :=
          g.ServeMux ++ [(lit "GET " ++ p, cors P (defaultHandler P h))] })) := by
  refine ⟨?_, ⟨rfl, fun _ => rfl, ?_⟩, ⟨rfl, fun _ => rfl, ?_⟩⟩
  · intro verb hverb
    simp only [List.mem_cons, List.mem_singleton, List.not_mem_nil, or_false] at hverb
    rcases hverb with e | e | e | e <;> subst e <;>
      exact ⟨fun ha => by simp [Ghttp.GET, Ghttp.POST, Ghttp.PUT, Ghttp.DELETE,
          Ghttp.HandleFunc, ha],
        fun ha => by simp [Ghttp.GET, Ghttp.POST, Ghttp.PUT, Ghttp.DELETE, Ghttp.HandleFunc,
          ha, registered]⟩
  · intro ha
    have ha1 : P.acceptsPattern (List.map Prod.fst New.ServeMux) (lit "GET " ++ p) = true := ha
    simp [Ghttp.GET, Ghttp.HandleFunc, ha1]
    rfl
  · intro ha
    have ha1 : P.acceptsPattern (List.map Prod.fst (g.CORS P).ServeMux) (lit "GET " ++ p) =
        true := ha
    simp [Ghttp.GET, Ghttp.HandleFunc, ha1]
    rfl

/-- C7 on a new router, with the handler `test` of the test suite: `GET` of the path
`/users/{name}` binds the one pattern `GET /users/{name}`. -/
theorem registration_binds_verb_and_path_witness :
    registered (New.GET testPlatform (lit "/users/\x7bname\x7d") test) =
      some [lit "GET /users/\x7bname\x7d"] := by
  have h := ((registration_binds_verb_and_path testPlatform New (lit "/users/\x7bname\x7d")
    test).1 (lit "GET ", New.GET testPlatform (lit "/users/\x7bname\x7d") test)
    (List.mem_cons_self _ _)).1 (by decide)
  simp only at h
  rw [h]
  decide

/-- C7 fails as stated: on a new router, `GET` of the empty path and of the path `x`,
whose patterns `GET ` and `GET x` have no slash, panic and bind nothing, and so does `GET`
of `/x` on a router where `GET /x` is bound already. -/
theorem registration_panics_on_refused_pattern :
    registered (New.GET testPlatform (lit "") test) = none ∧
    registered (New.GET testPlatform (lit "x") test) = none ∧
    registered (New.GET testPlatform (lit "/x") test) = some [lit "GET /x"] ∧
    registered (match New.GET testPlatform (lit "/x") test with
      | .error p => .error p
      | .ok g => g.GET testPlatform (lit "/x") test) = none := by
  decide

/-- C9: `FAIL` leaves the world, and so every response sink, as it is, and returns the
`httpError` whose `Status` is the given status and whose `Error()` is that of the given
error (its text, or the same panic on a nil error); a handler that calls `FAIL` and drops
its result, then goes on as `k`, is dispatched exactly as `k`. -/
theorem FAIL_writes_nothing {V : Type} (P : Platform V) (c : Context) (err : Option GoError)
    (status : Int) (σ : World) :
    (c.FAIL err status σ).1 = σ ∧
    (c.FAIL err status σ).2 = GoError.httpError err status ∧
    specStatus (c.FAIL err status σ).2 = status ∧
    (c.FAIL err status σ).2.Error = callError err ∧
    (∀ e : GoError, (c.FAIL (some e) status σ).2.Error = e.Error) ∧
    ∀ (k : HandlerFunc) (w : Nat) (r : Request) (σ0 : World),
      defaultHandler P (fun c1 σ1 => k c1 (c1.FAIL err status σ1).1) w r σ0 =
        defaultHandler P k w r σ0 :=
  ⟨rfl, rfl, rfl, by cases err <;> rfl, fun _ => rfl, fun _ _ _ _ => rfl⟩

/-- C2: when the handler returns no error, the dispatcher returns the world exactly as the
handler left it: status, headers and body of the response are the handler's.  The handler
runs on the world in which the dispatcher has set `Content-Type: application/json` on the
sink and bound the router's `Context` to the request, and on nothing else changed. -/
theorem defaultHandler_no_error {V : Type} (P : Platform V) (h : HandlerFunc) (w : Nat)
    (r : Request) (σ σ3 : World)
    (hh : h (NewContext w r)
      { Sinks := Function.update σ.Sinks w
          ((σ.Sinks w).SetHeader (lit "Content-Type") (lit "application/json")),
        Context := NewContext w r } = .ok (σ3, none)) :
    defaultHandler P h w r σ = .ok σ3 ∧
    observe w (defaultHandler P h w r σ) =
      some ((σ3.Sinks w).Result.StatusCode, (σ3.Sinks w).Result.Body) := by
  have e : defaultHandler P h w r σ = .ok σ3 := by
    unfold defaultHandler
    simp only [World.onSink, NewContext] at hh ⊢
    rw [hh]
  exact ⟨e, by rw [e]; rfl⟩

/-- C2 at the handler `test` of the test suite on an untouched sink: the response is
status 200 with the body the handler wrote. -/
theorem defaultHandler_no_error_witness :
    test (NewContext 0 (bareRequest (lit "GET")))
      { Sinks := Function.update New.serving.Sinks 0
          ((New.serving.Sinks 0).SetHeader (lit "Content-Type") (lit "application/json")),
        Context := NewContext 0 (bareRequest (lit "GET")) } =
      .ok (World.onSink
        { Sinks := Function.update New.serving.Sinks 0
            ((New.serving.Sinks 0).SetHeader (lit "Content-Type") (lit "application/json")),
          Context := NewContext 0 (bareRequest (lit "GET")) } 0
        (fun rw => rw.Write testPlatform (lit "\x7b\"name\":\"John Wick\"\x7d\n")), none) ∧
    observe 0 (defaultHandler testPlatform test 0 (bareRequest (lit "GET")) New.serving) =
      some (200, lit "\x7b\"name\":\"John Wick\"\x7d\n") :=
  ⟨rfl, (defaultHandler_no_error testPlatform test 0 (bareRequest (lit "GET")) New.serving _
    rfl).2.trans (by decide)⟩

/-- C1, as amended: when the handler returns an error without having written to the
response (header not written, body empty) and with the router's `Context` still bound to
the sink of the request, the status to send (the `Status` of an `httpError`, 500 for any
other error) is a valid status code (100 to 999), and the error has a text (it is not an
`httpError` built on a nil error), the dispatcher completes and the response has that
status and, as its body, the JSON encoding of the object whose `message` is the text of
the error. -/
theorem defaultHandler_error {V : Type} (P : Platform V) (h : HandlerFunc) (w : Nat)
    (r : Request) (σ σ3 : World) (e : GoError) (text b : GoString)
    (hh : h (NewContext w r)
      { Sinks := Function.update σ.Sinks w
          ((σ.Sinks w).SetHeader (lit "Content-Type") (lit "application/json")),
        Context := NewContext w r } = .ok (σ3, some e))
    (hw : (σ3.Sinks w).wroteHeader = false) (hb : (σ3.Sinks w).Body = [])
    (hc : σ3.Context.ResponseWriter = some w)
    (hs : 100 ≤ specStatus e ∧ specStatus e ≤ 999)
    (ht : e.Error = .ok text)
    (hm : P.Marshal (P.message text) = .ok b) :
    observe w (defaultHandler P h w r σ) = some (specStatus e, b) := by
  have hne : specStatus e ≠ 0 := by omega
  unfold defaultHandler
  simp only [World.onSink, NewContext] at hh ⊢
  rw [hh]
  cases e with
  | errorString s =>
    simp only [specStatus] at hs hne
    simp only [StatusInternalServerError]
    rw [WriteHeader_fresh σ3 w 500 hw hs]
    simp only [ht, Context.JSON, onSink_Context, hc, hm, observe, onSink_Sinks_self,
      ResponseRecorder.Write, ResponseRecorder.Result, hb]
    simp [specStatus]
  | httpError Err Status =>
    simp only [specStatus] at hs hne
    dsimp only
    rw [WriteHeader_fresh σ3 w Status hw hs]
    simp only [ht, Context.JSON, onSink_Context, hc, hm, observe, onSink_Sinks_self,
      ResponseRecorder.Write, ResponseRecorder.Result, hb]
    simp [specStatus, hne]

/-- C1 at a handler that returns a 404 `httpError` and writes nothing. -/
theorem defaultHandler_error_witness :
    observe 0 (defaultHandler testPlatform
      (failWith (newHttpError (some (.errorString (lit "boom"))) 404)) 0
      (bareRequest (lit "GET")) New.serving) =
      some (404, lit "\x7b\"message\":\"boom\"\x7d\n") :=
  defaultHandler_error testPlatform
    (failWith (newHttpError (some (.errorString (lit "boom"))) 404)) 0
    (bareRequest (lit "GET")) New.serving _ (newHttpError (some (.errorString (lit "boom"))) 404)
    (lit "boom") (lit "\x7b\"message\":\"boom\"\x7d\n") rfl rfl rfl rfl (by decide) rfl rfl

/-- C1 fails as stated, in four ways.  A handler that writes its answer and then returns a
404 `httpError` gets status 200 and a body made of its answer followed by the error object.
A handler that returns an `httpError` of status 0 makes the dispatcher panic.  A handler
that returns `FAIL` of a nil error and 400 makes the dispatcher panic once the status is
written, and no body follows.  When the router's `Context` is bound to another sink while
the handler runs, the sink of the request gets the status and an empty body, and the error
object goes to the other sink. -/
theorem defaultHandler_error_not_for_every_handler :
    observe 0 (defaultHandler testPlatform writeThenFail 0 (bareRequest (lit "GET"))
      New.serving) =
      some (200, lit "\x7b\"name\":\"John Wick\"\x7d\n\x7b\"message\":\"boom\"\x7d\n") ∧
    observe 0 (defaultHandler testPlatform
      (failWith (newHttpError (some (.errorString (lit "boom"))) 0)) 0
      (bareRequest (lit "GET")) New.serving) = none ∧
    observe 0 (defaultHandler testPlatform failNil 0 (bareRequest (lit "GET"))
      New.serving) = none ∧
    observe 0 (defaultHandler testPlatform failElsewhere 0 (bareRequest (lit "GET"))
      New.serving) = some (404, []) ∧
    observe 1 (defaultHandler testPlatform failElsewhere 0 (bareRequest (lit "GET"))
      New.serving) = some (200, lit "\x7b\"message\":\"boom\"\x7d\n") := by
  decide

/-- C8, as amended: once the dispatcher has returned, the router's `Context` field holds
the sink and the request of the request just served (it is assigned on every dispatch and
never reset), for every handler that does not itself assign that field. -/
theorem dispatch_leaves_Context_bound {V : Type} (P : Platform V) (h : HandlerFunc)
    (w : Nat) (r : Request) (σ σ5 : World)
    (hrun : defaultHandler P h w r σ = .ok σ5)
    (hh : ∀ (c : Context) (σa σb : World) (e : Option GoError),
      h c σa = .ok (σb, e) → σb.Context = σa.Context) :
    σ5.Context = NewContext w r := by
  unfold defaultHandler at hrun
  simp only [World.onSink] at hrun
  split at hrun
  · simp at hrun
  · next σ3 heq =>
    simp only [Except.ok.injEq] at hrun
    rw [← hrun, hh _ _ _ _ heq]
    rfl
  · next σ3 Err Status heq =>
    have h3 := hh _ _ _ _ heq
    split at hrun
    · simp at hrun
    · next σ4 h4 =>
      split at hrun
      · simp at hrun
      · split at hrun
        · simp at hrun
        · next σ6 e6 h6 =>
          simp only [Except.ok.injEq] at hrun
          rw [← hrun, JSON_Context P _ _ _ _ _ h6, WriteHeader_Context _ _ _ _ h4, h3]
          rfl
  · next σ3 err _ heq =>
    have h3 := hh _ _ _ _ heq
    split at hrun
    · simp at hrun
    · next σ4 h4 =>
      split at hrun
      · simp at hrun
      · split at hrun
        · simp at hrun
        · next σ6 e6 h6 =>
          simp only [Except.ok.injEq] at hrun
          rw [← hrun, JSON_Context P _ _ _ _ _ h6, WriteHeader_Context _ _ _ _ h4, h3]
          rfl

/-- C8 at the handler `test` of the test suite: after the dispatch the router holds the
sink 0 and the request. -/
theorem dispatch_leaves_Context_bound_witness :
    retained (defaultHandler testPlatform test 0 (bareRequest (lit "GET")) New.serving) =
      some (some 0, some (lit "GET")) := by
  have hrun : defaultHandler testPlatform test 0 (bareRequest (lit "GET")) New.serving =
      .ok (World.onSink
        { Sinks := Function.update New.serving.Sinks 0
            ((New.serving.Sinks 0).SetHeader (lit "Content-Type") (lit "application/json")),
          Context := NewContext 0 (bareRequest (lit "GET")) } 0
        (fun rw => rw.Write testPlatform (lit "\x7b\"name\":\"John Wick\"\x7d\n"))) := rfl
  have hctx := dispatch_leaves_Context_bound testPlatform test 0 (bareRequest (lit "GET"))
    New.serving _ hrun (fun c σa σb e hc => JSON_Context testPlatform c _ σa σb e hc)
  rw [hrun]
  simp only [retained, hctx]
  decide

/-- C8 fails as stated: the router built by `New` holds no sink and no request, and after
one dispatch it holds the sink and the request of that dispatch. -/
theorem dispatch_retains_Context :
    (New.Context.ResponseWriter = none ∧ New.Context.Request.isNone = true) ∧
    retained (.ok New.serving) = some (none, none) ∧
    retained (defaultHandler testPlatform noop 0 (bareRequest (lit "GET")) New.serving) =
      some (some 0, some (lit "GET")) := by
  decide

/-- C10, as amended: on an untouched sink, `JSON` of a `map[string]string` whose keys and
values are valid UTF-8, encoded as `encoding/json` does, returns no error, leaves the
status at 200 and writes as the body exactly the encoding, which decodes back to the map.
The map is given by its entries in increasing order of keys. -/
theorem JSON_on_fresh_sink (P : Platform (List (GoString × GoString)))
    (m : List (GoString × GoString)) (w : Nat) (r : Request) (σ : World)
    (hP : ∀ v, P.Marshal v = .ok (jsonEncode v))
    (hf : σ.Sinks w = NewRecorder)
    (hm : increasingKeys m = true)
    (hv : ∀ kv ∈ m, ValidString kv.1 = true ∧ ValidString kv.2 = true) :
    ∃ σ1, (NewContext w r).JSON P m σ = .ok (σ1, none) ∧
      (σ1.Sinks w).Result.StatusCode = 200 ∧
      (σ1.Sinks w).Result.Body = jsonEncode m ∧
      jsonDecode (σ1.Sinks w).Result.Body = some m := by
  have hbody : ((σ.onSink w (fun rw => rw.Write P (jsonEncode m))).Sinks w).Result.Body =
      jsonEncode m := by
    simp [ResponseRecorder.Write, ResponseRecorder.Result, hf, NewRecorder]
  refine ⟨σ.onSink w (fun rw => rw.Write P (jsonEncode m)), ?_, ?_, hbody, ?_⟩
  · simp [Context.JSON, NewContext, hP]
  · simp [ResponseRecorder.Write, ResponseRecorder.Result, hf, NewRecorder]
  · rw [hbody]
    exact jsonDecode_jsonEncode m hm hv

/-- C10 at the value of the test suite, the object whose `name` is `John Wick`. -/
theorem JSON_on_fresh_sink_witness :
    ∃ σ1, (NewContext 0 (bareRequest (lit "GET"))).JSON testPlatform
        [(lit "name", lit "John Wick")] New.serving = .ok (σ1, none) ∧
      (σ1.Sinks 0).Result.StatusCode = 200 ∧
      (σ1.Sinks 0).Result.Body = jsonEncode [(lit "name", lit "John Wick")] ∧
      jsonDecode (σ1.Sinks 0).Result.Body = some [(lit "name", lit "John Wick")] :=
  JSON_on_fresh_sink testPlatform [(lit "name", lit "John Wick")] 0 (bareRequest (lit "GET"))
    New.serving (fun _ => rfl) rfl (by decide) (by decide)

/-- C10 fails as stated: the map whose entry `name` is the single byte `0xFF`, not valid
UTF-8, is encoded without error, the response has status 200 and the body
`{"name":"\ufffd"}`, and that body decodes to the map whose entry is U+FFFD, three
bytes, not to the map that was written. -/
theorem JSON_body_of_invalid_UTF8_decodes_to_another_value :
    observe 0 (Except.map Prod.fst ((NewContext 0 (bareRequest (lit "GET"))).JSON testPlatform
      [(lit "name", [255])] New.serving)) =
      some (200, lit "\x7b\"name\":\"\\ufffd\"\x7d\n") ∧
    jsonDecode (lit "\x7b\"name\":\"\\ufffd\"\x7d\n") =
      some [(lit "name", [239, 191, 189])] ∧
    jsonDecode (lit "\x7b\"name\":\"\\ufffd\"\x7d\n") ≠ some [(lit "name", [255])] := by
  decide

/-! ## `http.Error` on a sink whose header is not written -/

theorem http_Error_fresh {V : Type} (P : Platform V) (w : Nat) (msg : GoString) (code : Int)
    (σ : World) (hf : (σ.Sinks w).wroteHeader = false) (hc : 100 ≤ code ∧ code ≤ 999) :
    http.Error P w msg code σ = .ok (σ.onSink w (fun rw =>
      { Code := code
        HeaderMap := ((rw.HeaderMap.Del (lit "Content-Length")).Set (lit "Content-Type")
          (lit "text/plain; charset=utf-8")).Set (lit "X-Content-Type-Options") (lit "nosniff")
        Body := rw.Body ++ (msg ++ lit "\n")
        wroteHeader := true
        snapHeader := some (((rw.HeaderMap.Del (lit "Content-Length")).Set (lit "Content-Type")
          (lit "text/plain; charset=utf-8")).Set (lit "X-Content-Type-Options")
          (lit "nosniff")) })) := by
  have h1 : ¬ (code < 100 ∨ code > 999) := by omega
  simp [http.Error, World.onSink, World.WriteHeader, ResponseRecorder.WriteHeader,
    ResponseRecorder.Write, ResponseRecorder.SetHeader, ResponseRecorder.DelHeader, hf, h1]

theorem http_Error_status {V : Type} (P : Platform V) (w : Nat) (msg : GoString) (code : Int)
    (σ : World) (hf : (σ.Sinks w).wroteHeader = false) (hc : 100 ≤ code ∧ code ≤ 999) :
    observeStatus w (http.Error P w msg code σ) = some code := by
  have hne : code ≠ 0 := by omega
  rw [http_Error_fresh P w msg code σ hf hc]
  simp [observeStatus, ResponseRecorder.Result, hne]

theorem http_Error_header {V : Type} (P : Platform V) (w : Nat) (msg : GoString) (code : Int)
    (σ : World) (hf : (σ.Sinks w).wroteHeader = false) (hc : 100 ≤ code ∧ code ≤ 999)
    (key : GoString)
    (h1 : CanonicalMIMEHeaderKey key ≠ CanonicalMIMEHeaderKey (lit "Content-Length"))
    (h2 : CanonicalMIMEHeaderKey key ≠ CanonicalMIMEHeaderKey (lit "Content-Type"))
    (h3 : CanonicalMIMEHeaderKey key ≠ CanonicalMIMEHeaderKey (lit "X-Content-Type-Options")) :
    observeHeader w key (http.Error P w msg code σ) = (σ.Sinks w).HeaderMap.Values key := by
  rw [http_Error_fresh P w msg code σ hf hc]
  simp [observeHeader, ResponseRecorder.Result, Header.Values, Header.Set, Header.Del,
    Function.update_apply, h1, h2, h3]

theorem corsHeaders_set (rw : ResponseRecorder) :
    ∀ kv ∈ corsHeaders, (withHeaders corsHeaders rw).HeaderMap.Values kv.1 = some [kv.2] := by
  intro kv hkv
  simp only [corsHeaders, List.mem_cons, List.mem_singleton, List.not_mem_nil, or_false] at hkv
  rcases hkv with h | h | h | h <;> subst h <;>
    simp +decide [withHeaders, corsHeaders, ResponseRecorder.SetHeader, Header.Values, Header.Set,
      Function.update_apply]

theorem cutByte_none (sep : Byte) (s : GoString) (h : sep ∉ s) : cutByte sep s = none := by
  induction s with
  | nil => rfl
  | cons c cs ih =>
    have hc : c ≠ sep := fun e => h (by simp [e])
    have hcs : sep ∉ cs := fun e => h (by simp [e])
    simp [cutByte, hc, ih hcs]

theorem SplitN_two_none (sep : Byte) (s : GoString) (h : sep ∉ s) : SplitN s sep 2 = [s] := by
  simp [SplitN, cutByte_none sep s h]

theorem cors_world {V : Type} (P : Platform V) (next : HttpHandlerFunc) (w : Nat) (r : Request)
    (σ : World) :
    cors P next w r σ =
      if r.Method = lit "OPTIONS" then
        http.Error P w (lit "No Content") 204 (σ.onSink w (withHeaders corsHeaders))
      else next w r (σ.onSink w (withHeaders corsHeaders)) := by
  have e : (((σ.onSink w (fun rw => rw.SetHeader (lit "Access-Control-Allow-Origin") (lit "*"))).onSink
      w (fun rw => rw.SetHeader (lit "Access-Control-Allow-Credentials") (lit "true"))).onSink w
      (fun rw => rw.SetHeader (lit "Access-Control-Allow-Headers")
        (lit "Content-Type, Content-Length, Accept-Encoding, X-CSRF-Token, Authorization, accept, origin, Cache-Control, X-Requested-With"))).onSink
      w (fun rw => rw.SetHeader (lit "Access-Control-Allow-Methods")
        (lit "POST, GET, OPTIONS, PUT, DELETE")) = σ.onSink w (withHeaders corsHeaders) := by
    simp [World.onSink, withHeaders, corsHeaders]
  unfold cors
  simp only [e]

/-- C6: on a sink whose header is not written yet, `cors` sets the four CORS headers on the
sink; for the method `OPTIONS` it answers by `http.Error` with status 204, whatever `next`
is, and the response carries the four headers; for every other method it is `next`,
applied once, to the same sink and request, in the world where the four headers are
set. -/
theorem cors_contract {V : Type} (P : Platform V) (next : HttpHandlerFunc) (w : Nat)
    (r : Request) (σ : World) (hf : (σ.Sinks w).wroteHeader = false) :
    (∀ kv ∈ corsHeaders,
      ((σ.onSink w (withHeaders corsHeaders)).Sinks w).HeaderMap.Values kv.1 = some [kv.2]) ∧
    (r.Method = lit "OPTIONS" →
      rejected P (cors P next w r σ) w (lit "No Content") 204
        (σ.onSink w (withHeaders corsHeaders)) ∧
      ∀ kv ∈ corsHeaders, observeHeader w kv.1 (cors P next w r σ) = some [kv.2]) ∧
    (r.Method ≠ lit "OPTIONS" →
      cors P next w r σ = next w r (σ.onSink w (withHeaders corsHeaders))) := by
  have hset : ∀ kv ∈ corsHeaders,
      ((σ.onSink w (withHeaders corsHeaders)).Sinks w).HeaderMap.Values kv.1 = some [kv.2] := by
    intro kv hkv
    rw [onSink_Sinks_self]
    exact corsHeaders_set _ kv hkv
  have hf4 : ((σ.onSink w (withHeaders corsHeaders)).Sinks w).wroteHeader = false := by
    rw [onSink_Sinks_self]
    simpa [withHeaders, corsHeaders, ResponseRecorder.SetHeader] using hf
  refine ⟨hset, ?_, ?_⟩
  · intro hm
    rw [cors_world, if_pos hm]
    refine ⟨⟨rfl, http_Error_status P w _ 204 _ hf4 (by decide)⟩, ?_⟩
    intro kv hkv
    have hk : CanonicalMIMEHeaderKey kv.1 ≠ CanonicalMIMEHeaderKey (lit "Content-Length") ∧
        CanonicalMIMEHeaderKey kv.1 ≠ CanonicalMIMEHeaderKey (lit "Content-Type") ∧
        CanonicalMIMEHeaderKey kv.1 ≠ CanonicalMIMEHeaderKey (lit "X-Content-Type-Options") := by
      simp only [corsHeaders, List.mem_cons, List.mem_singleton, List.not_mem_nil,
        or_false] at hkv
      rcases hkv with h | h | h | h <;> subst h <;> decide
    rw [http_Error_header P w _ 204 _ hf4 (by decide) kv.1 hk.1 hk.2.1 hk.2.2]
    exact hset kv hkv
  · intro hm
    rw [cors_world, if_neg hm]

/-- C6 on an untouched sink, with the dispatcher of the handler `test` as `next`: an
`OPTIONS` request is answered 204 and a `GET` request goes to `next`. -/
theorem cors_contract_witness :
    observeStatus 0 (cors testPlatform (defaultHandler testPlatform test) 0
      (bareRequest (lit "OPTIONS")) New.serving) = some 204 ∧
    observeHeader 0 (lit "Access-Control-Allow-Origin")
      (cors testPlatform (defaultHandler testPlatform test) 0
        (bareRequest (lit "OPTIONS")) New.serving) = some [lit "*"] ∧
    cors testPlatform (defaultHandler testPlatform test) 0 (bareRequest (lit "GET"))
      New.serving =
      defaultHandler testPlatform test 0 (bareRequest (lit "GET"))
        (New.serving.onSink 0 (withHeaders corsHeaders)) :=
  ⟨((cors_contract testPlatform (defaultHandler testPlatform test) 0
      (bareRequest (lit "OPTIONS")) New.serving rfl).2.1 rfl).1.2,
    ((cors_contract testPlatform (defaultHandler testPlatform test) 0
      (bareRequest (lit "OPTIONS")) New.serving rfl).2.1 rfl).2 _ (List.mem_cons_self _ _),
    (cors_contract testPlatform (defaultHandler testPlatform test) 0
      (bareRequest (lit "GET")) New.serving rfl).2.2 (by decide)⟩

theorem lit_Basic_space : lit "Basic " = lit "Basic" ++ [32] := by decide

theorem lit_colon : lit ":" = [58] := by decide

theorem space_not_mem_Basic : (32 : Byte) ∉ lit "Basic" := by decide

/-- C3, as amended: for a configured username without a colon, and every password, a
request whose `Authorization` header is `Basic`, a space and the standard base64 encoding
of the username, a colon and the password is handed to `next` with the same sink, the same
request and the world unchanged. -/
theorem BasicAuth_accepts {V : Type} (P : Platform V) (next : HttpHandlerFunc)
    (username password : GoString) (w : Nat) (r : Request) (σ : World)
    (hu : (58 : Byte) ∉ username)
    (hauth : r.Header.Get (lit "Authorization") =
      lit "Basic " ++ EncodeToString (username ++ lit ":" ++ password)) :
    BasicAuth P next username password w r σ = next w r σ := by
  have hsplit : SplitN (r.Header.Get (lit "Authorization")) 32 2 =
      [lit "Basic", EncodeToString (username ++ lit ":" ++ password)] := by
    rw [hauth, lit_Basic_space, List.append_assoc]
    exact SplitN_two 32 _ _ space_not_mem_Basic
  have hne : r.Header.Get (lit "Authorization") ≠ [] := by
    rw [hauth, lit_Basic_space]
    simp
  have hpair : SplitN (username ++ lit ":" ++ password) 58 2 = [username, password] := by
    rw [lit_colon, List.append_assoc]
    exact SplitN_two 58 _ _ hu
  have hpair1 : SplitN (username ++ (lit ":" ++ password)) 58 2 = [username, password] := by
    rw [← List.append_assoc]
    exact hpair
  unfold BasicAuth
  simp [hne, hsplit, DecodeString_EncodeToString, hpair1]

/-- C3 at the credentials `user` and `pass`. -/
theorem BasicAuth_accepts_witness :
    BasicAuth testPlatform noContent (lit "user") (lit "pass") 0
      (requestWith (lit "GET") (lit "Basic dXNlcjpwYXNz")) New.serving =
      noContent 0 (requestWith (lit "GET") (lit "Basic dXNlcjpwYXNz")) New.serving :=
  BasicAuth_accepts testPlatform noContent (lit "user") (lit "pass") 0
    (requestWith (lit "GET") (lit "Basic dXNlcjpwYXNz")) New.serving (by decide) (by decide)

/-- C3 fails as stated: with the configured username `a:b` and password `c`, the request
whose header is `Basic` and the encoding of `a:b:c` is answered 401 and does not reach
`next`, which would have answered 204. -/
theorem BasicAuth_rejects_username_with_colon :
    observeStatus 0 (BasicAuth testPlatform noContent (lit "a:b") (lit "c") 0
      (requestWith (lit "GET")
        (lit "Basic " ++ EncodeToString (lit "a:b" ++ lit ":" ++ lit "c")))
      New.serving) = some 401 ∧
    observeStatus 0 (noContent 0
      (requestWith (lit "GET")
        (lit "Basic " ++ EncodeToString (lit "a:b" ++ lit ":" ++ lit "c")))
      New.serving) = some 204 := by
  decide

theorem BasicAuth_bad_request {V : Type} (P : Platform V) (w : Nat) (text : GoString)
    (code : Int) (σ : World) (hf : (σ.Sinks w).wroteHeader = false)
    (hc : 100 ≤ code ∧ code ≤ 999) :
    rejected P (http.Error P w text code σ) w text code σ ∧
      observeHeader w (lit "WWW-Authenticate") (http.Error P w text code σ) =
        (σ.Sinks w).HeaderMap.Values (lit "WWW-Authenticate") :=
  ⟨⟨rfl, http_Error_status P w text code σ hf hc⟩,
    http_Error_header P w text code σ hf hc _ (by decide) (by decide) (by decide)⟩

/-- C4: on a sink whose header is not written yet, `BasicAuth` answers by `http.Error`,
whatever `next` is, with the status of the first check that fails.  An empty or absent
`Authorization` header gives 401, after `WWW-Authenticate: Basic realm="Restricted"` is
set.  A header without a space, or whose part before the first space is not `Basic`, gives
400.  A payload, the part after the first space, that is not standard base64 gives 400.
A decoded payload without a colon, or whose part before the first colon is not the
configured username, or whose part after it is not the configured password, gives 401.
In the last three cases the `WWW-Authenticate` header of the response is what the sink
already had. -/
theorem BasicAuth_rejects {V : Type} (P : Platform V) (next : HttpHandlerFunc)
    (username password : GoString) (w : Nat) (r : Request) (σ : World)
    (hf : (σ.Sinks w).wroteHeader = false) :
    (r.Header.Get (lit "Authorization") = [] →
      rejected P (BasicAuth P next username password w r σ) w (lit "Authorization required")
        401 (σ.onSink w (fun rw =>
          rw.SetHeader (lit "WWW-Authenticate") (lit "Basic realm=\"Restricted\""))) ∧
      observeHeader w (lit "WWW-Authenticate") (BasicAuth P next username password w r σ) =
        some [lit "Basic realm=\"Restricted\""]) ∧
    (r.Header.Get (lit "Authorization") ≠ [] →
      ((32 : Byte) ∉ r.Header.Get (lit "Authorization") ∨
        ∃ scheme payload, r.Header.Get (lit "Authorization") = scheme ++ 32 :: payload ∧
          (32 : Byte) ∉ scheme ∧ scheme ≠ lit "Basic") →
      rejected P (BasicAuth P next username password w r σ) w (lit "Bad request") 400 σ ∧
      observeHeader w (lit "WWW-Authenticate") (BasicAuth P next username password w r σ) =
        (σ.Sinks w).HeaderMap.Values (lit "WWW-Authenticate")) ∧
    (∀ payload, r.Header.Get (lit "Authorization") = lit "Basic" ++ 32 :: payload →
      DecodeString payload = none →
      rejected P (BasicAuth P next username password w r σ) w (lit "Bad request") 400 σ ∧
      observeHeader w (lit "WWW-Authenticate") (BasicAuth P next username password w r σ) =
        (σ.Sinks w).HeaderMap.Values (lit "WWW-Authenticate")) ∧
    (∀ payload credentials,
      r.Header.Get (lit "Authorization") = lit "Basic" ++ 32 :: payload →
      DecodeString payload = some credentials →
      ((58 : Byte) ∉ credentials ∨
        ∃ u p, credentials = u ++ 58 :: p ∧ (58 : Byte) ∉ u ∧
          (u ≠ username ∨ p ≠ password)) →
      rejected P (BasicAuth P next username password w r σ) w (lit "Unauthorized") 401 σ ∧
      observeHeader w (lit "WWW-Authenticate") (BasicAuth P next username password w r σ) =
        (σ.Sinks w).HeaderMap.Values (lit "WWW-Authenticate")) := by
  refine ⟨?_, ?_, ?_, ?_⟩
  · intro hempty
    have hf1 : ((σ.onSink w (fun rw => rw.SetHeader (lit "WWW-Authenticate")
        (lit "Basic realm=\"Restricted\""))).Sinks w).wroteHeader = false := by
      rw [onSink_Sinks_self]
      exact hf
    have e : BasicAuth P next username password w r σ =
        http.Error P w (lit "Authorization required") 401 (σ.onSink w (fun rw =>
          rw.SetHeader (lit "WWW-Authenticate") (lit "Basic realm=\"Restricted\""))) := by
      unfold BasicAuth
      simp [hempty]
    rw [e]
    obtain ⟨h1, h2⟩ := BasicAuth_bad_request P w (lit "Authorization required") 401 _ hf1
      (by decide)
    refine ⟨h1, ?_⟩
    rw [h2, onSink_Sinks_self]
    simp [ResponseRecorder.SetHeader, Header.Values, Header.Set]
  · intro hne hbad
    have e : BasicAuth P next username password w r σ =
        http.Error P w (lit "Bad request") 400 σ := by
      unfold BasicAuth
      rcases hbad with hno | ⟨scheme, payload, hs, hsp, hsch⟩
      · simp [hne, SplitN_two_none 32 _ hno]
      · have hsplit := SplitN_two 32 scheme payload hsp
        rw [← hs] at hsplit
        simp [hne, hsplit, hsch]
    rw [e]
    exact BasicAuth_bad_request P w (lit "Bad request") 400 σ hf (by decide)
  · intro payload hs hdec
    have hne : r.Header.Get (lit "Authorization") ≠ [] := by
      rw [hs]
      simp
    have hsplit := SplitN_two 32 (lit "Basic") payload space_not_mem_Basic
    rw [← hs] at hsplit
    have e : BasicAuth P next username password w r σ =
        http.Error P w (lit "Bad request") 400 σ := by
      unfold BasicAuth
      simp [hne, hsplit, hdec]
    rw [e]
    exact BasicAuth_bad_request P w (lit "Bad request") 400 σ hf (by decide)
  · intro payload credentials hs hdec hbad
    have hne : r.Header.Get (lit "Authorization") ≠ [] := by
      rw [hs]
      simp
    have hsplit := SplitN_two 32 (lit "Basic") payload space_not_mem_Basic
    rw [← hs] at hsplit
    have e : BasicAuth P next username password w r σ =
        http.Error P w (lit "Unauthorized") 401 σ := by
      unfold BasicAuth
      rcases hbad with hno | ⟨u, p, hcred, hu, hmis⟩
      · simp [hne, hsplit, hdec, SplitN_two_none 58 _ hno]
      · have hpair := SplitN_two 58 u p hu
        rw [← hcred] at hpair
        rcases hmis with hm | hm
        · simp [hne, hsplit, hdec, hpair, hm]
        · simp [hne, hsplit, hdec, hpair, hm]
    rw [e]
    exact BasicAuth_bad_request P w (lit "Unauthorized") 401 σ hf (by decide)

/-- C4 on an untouched sink, with the credentials `user` and `pass`: no header gives 401
and the challenge header; the headers `Basic` and `Bearer abc` give 400; the payload `!!!!`
gives 400; the credentials `user:wrong` give 401 and no challenge header. -/
theorem BasicAuth_rejects_witness :
    (observeStatus 0 (BasicAuth testPlatform noContent (lit "user") (lit "pass") 0
        (bareRequest (lit "GET")) New.serving) = some 401 ∧
      observeHeader 0 (lit "WWW-Authenticate")
        (BasicAuth testPlatform noContent (lit "user") (lit "pass") 0
          (bareRequest (lit "GET")) New.serving) = some [lit "Basic realm=\"Restricted\""]) ∧
    observeStatus 0 (BasicAuth testPlatform noContent (lit "user") (lit "pass") 0
      (requestWith (lit "GET") (lit "Basic")) New.serving) = some 400 ∧
    observeStatus 0 (BasicAuth testPlatform noContent (lit "user") (lit "pass") 0
      (requestWith (lit "GET") (lit "Bearer abc")) New.serving) = some 400 ∧
    observeStatus 0 (BasicAuth testPlatform noContent (lit "user") (lit "pass") 0
      (requestWith (lit "GET") (lit "Basic !!!!")) New.serving) = some 400 ∧
    (observeStatus 0 (BasicAuth testPlatform noContent (lit "user") (lit "pass") 0
        (requestWith (lit "GET") (lit "Basic dXNlcjp3cm9uZw==")) New.serving) = some 401 ∧
      observeHeader 0 (lit "WWW-Authenticate")
        (BasicAuth testPlatform noContent (lit "user") (lit "pass") 0
          (requestWith (lit "GET") (lit "Basic dXNlcjp3cm9uZw==")) New.serving) = none) :=
  ⟨⟨((BasicAuth_rejects testPlatform noContent (lit "user") (lit "pass") 0
        (bareRequest (lit "GET")) New.serving rfl).1 (by decide)).1.2,
      ((BasicAuth_rejects testPlatform noContent (lit "user") (lit "pass") 0
        (bareRequest (lit "GET")) New.serving rfl).1 (by decide)).2⟩,
    ((BasicAuth_rejects testPlatform noContent (lit "user") (lit "pass") 0
      (requestWith (lit "GET") (lit "Basic")) New.serving rfl).2.1 (by decide)
      (Or.inl (by decide))).1.2,
    ((BasicAuth_rejects testPlatform noContent (lit "user") (lit "pass") 0
      (requestWith (lit "GET") (lit "Bearer abc")) New.serving rfl).2.1 (by decide)
      (Or.inr ⟨lit "Bearer", lit "abc", by decide, by decide, by decide⟩)).1.2,
    ((BasicAuth_rejects testPlatform noContent (lit "user") (lit "pass") 0
      (requestWith (lit "GET") (lit "Basic !!!!")) New.serving rfl).2.2.1 (lit "!!!!")
      (by decide) (by decide)).1.2,
    ((BasicAuth_rejects testPlatform noContent (lit "user") (lit "pass") 0
      (requestWith (lit "GET") (lit "Basic dXNlcjp3cm9uZw==")) New.serving rfl).2.2.2
      (lit "dXNlcjp3cm9uZw==") (lit "user:wrong") (by decide) (by decide)
      (Or.inr ⟨lit "user", lit "wrong", by decide, by decide, Or.inr (by decide)⟩)).1.2,
    ((BasicAuth_rejects testPlatform noContent (lit "user") (lit "pass") 0
      (requestWith (lit "GET") (lit "Basic dXNlcjp3cm9uZw==")) New.serving rfl).2.2.2
      (lit "dXNlcjp3cm9uZw==") (lit "user:wrong") (by decide) (by decide)
      (Or.inr ⟨lit "user", lit "wrong", by decide, by decide, Or.inr (by decide)⟩)).2⟩

end ghttp
